import Mathlib

/-
Shallow embedding of the validation engine of the Data Alchemist repository
(src/lib/validation-engine.ts) together with the record model it operates on
(Client, Worker, Task, ValidationError from lib/data-context).

Modelling conventions:
* TypeScript strings are Lean String, TypeScript numbers are Lean Int
  (every number the engine inspects is used as an integer).
* JS template-literal stringification of a number is modelled by natDec and
  intDec below (ordinary decimal notation, as JS produces for integers).
* Math.random() is the only source of nondeterminism in the engine (it is
  interpolated into the id of every missing_required_field defect).  The
  engine is therefore parameterised by the stream of stringified values the
  successive Math.random() calls return: rnd : Nat -> String, consumed in
  order by a counter threaded through validateMissingRequiredColumns.
  Two successive invocations of validateAll observe different streams.
* JSON.parse(s) succeeding or throwing is a deterministic function of s; it
  is a platform builtin, modelled by a parameter jsonOk : String -> Bool.
* A JS Set of strings is modelled by a Lean list used only via membership.
* The Record<number, number> objects built by validatePhaseSlotSaturation
  are modelled by association lists (recAdd / lookupRec below); Object.keys
  enumerates integer-like keys in ascending numeric order followed by the
  remaining (negative) keys in insertion order, modelled by jsKeys.
-/

namespace DataAlchemist

/-- Decimal digit character, as JS prints the digits 0..9. -/
def digitChar : Nat → Char
  | 0 => '0'
  | 1 => '1'
  | 2 => '2'
  | 3 => '3'
  | 4 => '4'
  | 5 => '5'
  | 6 => '6'
  | 7 => '7'
  | 8 => '8'
  | _ => '9'

/-- Little-endian decimal digits of n, with explicit fuel (fuel ≥ n suffices). -/
def natDigitsRev : Nat → Nat → List Nat
  | 0, n => [n % 10]
  | f + 1, n => if n < 10 then [n] else n % 10 :: natDigitsRev f (n / 10)

/-- Model of JS stringification of a non-negative integer. -/
def natDec (n : Nat) : String :=
  String.mk (((natDigitsRev n n).reverse).map digitChar)

/-- Model of JS stringification of an integer. -/
def intDec : Int → String
  | Int.ofNat n => natDec n
  | Int.negSucc n => "-" ++ natDec (n + 1)

/-- Severity levels of the ValidationError interface in lib/data-context. -/
inductive Severity where
  | error
  | warning
  | info
deriving DecidableEq, Repr

/-- The ValidationError interface of lib/data-context (the Defect type). -/
structure ValidationError where
  id : String
  type : String
  entity : String
  entityId : String
  field : String
  message : String
  severity : Severity
deriving DecidableEq, Repr

/-- The Client interface of lib/data-context.  The optional UI field
_errors is never read by the engine and is omitted. -/
structure Client where
  ClientID : String
  ClientName : String
  PriorityLevel : Int
  RequestedTaskIDs : List String
  GroupTag : String
  AttributesJSON : String
deriving DecidableEq, Repr

/-- The Worker interface of lib/data-context (engine-relevant fields). -/
structure Worker where
  WorkerID : String
  WorkerName : String
  Skills : List String
  AvailableSlots : List Int
  MaxLoadPerPhase : Int
  WorkerGroup : String
  QualificationLevel : Int
deriving DecidableEq, Repr

/-- The Task interface of lib/data-context (engine-relevant fields). -/
structure Task where
  TaskID : String
  TaskName : String
  Category : String
  Duration : Int
  RequiredSkills : List String
  PreferredPhases : List Int
  MaxConcurrent : Int
deriving DecidableEq, Repr

/- Defect constructors, one per push site in validation-engine.ts.  The JS
truthiness test on a string field (for example !client.ClientID) is the test
for the empty string in this typed model, and the fallback
client.ClientID || unknown therefore yields the literal placeholder. -/

/-- Defect pushed when !client.ClientID; r is the stringified Math.random(). -/
def mkMissingClientId (r : String) : ValidationError :=
  { id := "missing-client-id-" ++ r, type := "missing_required_field",
    entity := "clients", entityId := "unknown", field := "ClientID",
    message := "ClientID is required", severity := Severity.error }

/-- Defect pushed when !client.ClientName. -/
def mkMissingClientName (cid r : String) : ValidationError :=
  { id := "missing-client-name-" ++ r, type := "missing_required_field",
    entity := "clients", entityId := cid, field := "ClientName",
    message := "ClientName is required", severity := Severity.error }

/-- Defect pushed when !worker.WorkerID. -/
def mkMissingWorkerId (r : String) : ValidationError :=
  { id := "missing-worker-id-" ++ r, type := "missing_required_field",
    entity := "workers", entityId := "unknown", field := "WorkerID",
    message := "WorkerID is required", severity := Severity.error }

/-- Defect pushed when !worker.WorkerName. -/
def mkMissingWorkerName (wid r : String) : ValidationError :=
  { id := "missing-worker-name-" ++ r, type := "missing_required_field",
    entity := "workers", entityId := wid, field := "WorkerName",
    message := "WorkerName is required", severity := Severity.error }

/-- Defect pushed when !task.TaskID. -/
def mkMissingTaskId (r : String) : ValidationError :=
  { id := "missing-task-id-" ++ r, type := "missing_required_field",
    entity := "tasks", entityId := "unknown", field := "TaskID",
    message := "TaskID is required", severity := Severity.error }

/-- Defect pushed when !task.TaskName. -/
def mkMissingTaskName (tid r : String) : ValidationError :=
  { id := "missing-task-name-" ++ r, type := "missing_required_field",
    entity := "tasks", entityId := tid, field := "TaskName",
    message := "TaskName is required", severity := Severity.error }

/-- Defect for a repeated ClientID. -/
def dupClientDefect (cid : String) : ValidationError :=
  { id := "duplicate-client-" ++ cid, type := "duplicate_id",
    entity := "clients", entityId := cid, field := "ClientID",
    message := "Duplicate ClientID: " ++ cid, severity := Severity.error }

/-- Defect for a repeated WorkerID. -/
def dupWorkerDefect (wid : String) : ValidationError :=
  { id := "duplicate-worker-" ++ wid, type := "duplicate_id",
    entity := "workers", entityId := wid, field := "WorkerID",
    message := "Duplicate WorkerID: " ++ wid, severity := Severity.error }

/-- Defect for a repeated TaskID. -/
def dupTaskDefect (tid : String) : ValidationError :=
  { id := "duplicate-task-" ++ tid, type := "duplicate_id",
    entity := "tasks", entityId := tid, field := "TaskID",
    message := "Duplicate TaskID: " ++ tid, severity := Severity.error }

/-- Defect for an AvailableSlots element that is not a positive integer. -/
def mkInvalidSlot (wid : String) (slot : Int) : ValidationError :=
  { id := "invalid-slot-" ++ wid ++ "-" ++ intDec slot, type := "malformed_list",
    entity := "workers", entityId := wid, field := "AvailableSlots",
    message := "Invalid slot value: " ++ intDec slot ++ ". Must be positive integer",
    severity := Severity.error }

/-- Defect for a PriorityLevel outside 1..5. -/
def mkBadPriority (c : Client) : ValidationError :=
  { id := "invalid-priority-" ++ c.ClientID, type := "out_of_range",
    entity := "clients", entityId := c.ClientID, field := "PriorityLevel",
    message := "PriorityLevel must be between 1 and 5, got " ++ intDec c.PriorityLevel,
    severity := Severity.error }

/-- Defect for a Duration below 1. -/
def mkBadDuration (t : Task) : ValidationError :=
  { id := "invalid-duration-" ++ t.TaskID, type := "out_of_range",
    entity := "tasks", entityId := t.TaskID, field := "Duration",
    message := "Duration must be at least 1, got " ++ intDec t.Duration,
    severity := Severity.error }

/-- Defect for a MaxLoadPerPhase below 1. -/
def mkBadLoad (w : Worker) : ValidationError :=
  { id := "invalid-load-" ++ w.WorkerID, type := "out_of_range",
    entity := "workers", entityId := w.WorkerID, field := "MaxLoadPerPhase",
    message := "MaxLoadPerPhase must be at least 1, got " ++ intDec w.MaxLoadPerPhase,
    severity := Severity.error }

/-- Defect for an AttributesJSON that JSON.parse rejects. -/
def mkBrokenJson (cid : String) : ValidationError :=
  { id := "broken-json-" ++ cid, type := "broken_json",
    entity := "clients", entityId := cid, field := "AttributesJSON",
    message := "Invalid JSON format in AttributesJSON", severity := Severity.error }

/-- Defect for a requested TaskID that no Task carries. -/
def mkUnknownRef (cid tid : String) : ValidationError :=
  { id := "unknown-task-" ++ cid ++ "-" ++ tid, type := "unknown_reference",
    entity := "clients", entityId := cid, field := "RequestedTaskIDs",
    message := "Referenced TaskID '" ++ tid ++ "' does not exist",
    severity := Severity.error }

/-- Defect for a worker with fewer available slots than MaxLoadPerPhase. -/
def mkOverloaded (w : Worker) : ValidationError :=
  { id := "overloaded-worker-" ++ w.WorkerID, type := "overloaded_worker",
    entity := "workers", entityId := w.WorkerID, field := "MaxLoadPerPhase",
    message := "MaxLoadPerPhase (" ++ intDec w.MaxLoadPerPhase
      ++ ") exceeds available slots (" ++ natDec w.AvailableSlots.length ++ ")",
    severity := Severity.warning }

/-- System defect for an oversaturated phase. -/
def satDefect (phase demand capacity : Int) : ValidationError :=
  { id := "phase-saturation-" ++ intDec phase, type := "phase_saturation",
    entity := "system", entityId := "system", field := "phase_capacity",
    message := "Phase " ++ intDec phase ++ " is oversaturated: demand ("
      ++ intDec demand ++ ") exceeds capacity (" ++ intDec capacity ++ ")",
    severity := Severity.warning }

/-- Defect for a required skill offered by no worker. -/
def mkMissingSkill (tid sk : String) : ValidationError :=
  { id := "missing-skill-" ++ tid ++ "-" ++ sk, type := "skill_coverage",
    entity := "tasks", entityId := tid, field := "RequiredSkills",
    message := "Required skill '" ++ sk ++ "' is not available in any worker",
    severity := Severity.error }

/-- Defect for MaxConcurrent exceeding the qualified-worker count. -/
def mkMaxConc (tid : String) (m : Int) (q : Nat) : ValidationError :=
  { id := "infeasible-concurrency-" ++ tid, type := "max_concurrency",
    entity := "tasks", entityId := tid, field := "MaxConcurrent",
    message := "MaxConcurrent (" ++ intDec m ++ ") exceeds qualified workers ("
      ++ natDec q ++ ")", severity := Severity.warning }

/- Check 1: validateMissingRequiredColumns.  Each push interpolates a fresh
Math.random() value into the defect id, so the translation threads the index
into the rnd stream through the three forEach loops. -/

/-- Client part of validateMissingRequiredColumns, threading the rnd index. -/
def missingClientErrors (rnd : Nat → String) : List Client → Nat → List ValidationError × Nat
  | [], k => ([], k)
  | c :: rest, k =>
    let s1 : List ValidationError × Nat :=
      if c.ClientID = "" then ([mkMissingClientId (rnd k)], k + 1) else ([], k)
    let s2 : List ValidationError × Nat :=
      if c.ClientName = "" then
        (s1.1 ++ [mkMissingClientName c.ClientID (rnd s1.2)], s1.2 + 1)
      else s1
    let r := missingClientErrors rnd rest s2.2
    (s2.1 ++ r.1, r.2)

/-- Worker part of validateMissingRequiredColumns. -/
def missingWorkerErrors (rnd : Nat → String) : List Worker → Nat → List ValidationError × Nat
  | [], k => ([], k)
  | w :: rest, k =>
    let s1 : List ValidationError × Nat :=
      if w.WorkerID = "" then ([mkMissingWorkerId (rnd k)], k + 1) else ([], k)
    let s2 : List ValidationError × Nat :=
      if w.WorkerName = "" then
        (s1.1 ++ [mkMissingWorkerName w.WorkerID (rnd s1.2)], s1.2 + 1)
      else s1
    let r := missingWorkerErrors rnd rest s2.2
    (s2.1 ++ r.1, r.2)

/-- Task part of validateMissingRequiredColumns. -/
def missingTaskErrors (rnd : Nat → String) : List Task → Nat → List ValidationError × Nat
  | [], k => ([], k)
  | t :: rest, k =>
    let s1 : List ValidationError × Nat :=
      if t.TaskID = "" then ([mkMissingTaskId (rnd k)], k + 1) else ([], k)
    let s2 : List ValidationError × Nat :=
      if t.TaskName = "" then
        (s1.1 ++ [mkMissingTaskName t.TaskID (rnd s1.2)], s1.2 + 1)
      else s1
    let r := missingTaskErrors rnd rest s2.2
    (s2.1 ++ r.1, r.2)

/-- validateMissingRequiredColumns: clients, then workers, then tasks. -/
def validateMissingRequiredColumns (rnd : Nat → String)
    (clients : List Client) (workers : List Worker) (tasks : List Task) :
    List ValidationError × Nat :=
  let a := missingClientErrors rnd clients 0
  let b := missingWorkerErrors rnd workers a.2
  let c := missingTaskErrors rnd tasks b.2
  (a.1 ++ b.1 ++ c.1, c.2)

/- Check 2: validateDuplicateIDs.  The JS Set is modelled by the list of
identifiers already seen; the set is consulted before the current id is
added, so the first occurrence is never flagged. -/

/-- Generic duplicate scan: flag each element whose id was already seen. -/
def dupScan (mk : String → ValidationError) (getId : α → String) :
    List String → List α → List ValidationError
  | _, [] => []
  | seen, x :: rest =>
    (if getId x ∈ seen then [mk (getId x)] else [])
      ++ dupScan mk getId (getId x :: seen) rest

/-- validateDuplicateIDs over the three collections. -/
def validateDuplicateIDs (clients : List Client) (workers : List Worker)
    (tasks : List Task) : List ValidationError :=
  dupScan dupClientDefect Client.ClientID [] clients
    ++ dupScan dupWorkerDefect Worker.WorkerID [] workers
    ++ dupScan dupTaskDefect Task.TaskID [] tasks

/-- validateMalformedLists.  In this typed model AvailableSlots is always an
array of integers, so Array.isArray holds and Number.isInteger holds for
every element; only the positivity test slot < 1 remains. -/
def validateMalformedLists (workers : List Worker) : List ValidationError :=
  workers.flatMap fun w =>
    w.AvailableSlots.flatMap fun slot =>
      if slot < 1 then [mkInvalidSlot w.WorkerID slot] else []

/-- validateOutOfRangeValues: clients (PriorityLevel), then tasks (Duration),
then workers (MaxLoadPerPhase), as in the source. -/
def validateOutOfRangeValues (clients : List Client) (workers : List Worker)
    (tasks : List Task) : List ValidationError :=
  (clients.flatMap fun c =>
    if c.PriorityLevel < 1 ∨ 5 < c.PriorityLevel then [mkBadPriority c] else [])
  ++ (tasks.flatMap fun t => if t.Duration < 1 then [mkBadDuration t] else [])
  ++ (workers.flatMap fun w => if w.MaxLoadPerPhase < 1 then [mkBadLoad w] else [])

/-- validateBrokenJSON, with JSON.parse modelled by the jsonOk parameter. -/
def validateBrokenJSON (jsonOk : String → Bool) (clients : List Client) :
    List ValidationError :=
  clients.flatMap fun c =>
    if jsonOk c.AttributesJSON then [] else [mkBrokenJson c.ClientID]

/-- validateUnknownReferences: one defect per RequestedTaskIDs element that
is not among the TaskIDs. -/
def validateUnknownReferences (clients : List Client) (tasks : List Task) :
    List ValidationError :=
  let taskIds := tasks.map Task.TaskID
  clients.flatMap fun c =>
    c.RequestedTaskIDs.flatMap fun tid =>
      if tid ∈ taskIds then [] else [mkUnknownRef c.ClientID tid]

/-- validateCircularCoRunGroups: documented placeholder, always empty. -/
def validateCircularCoRunGroups : List ValidationError := []

/-- validateOverloadedWorkers: AvailableSlots.length < MaxLoadPerPhase. -/
def validateOverloadedWorkers (workers : List Worker) : List ValidationError :=
  workers.flatMap fun w =>
    if (w.AvailableSlots.length : Int) < w.MaxLoadPerPhase
    then [mkOverloaded w] else []

/- Check 9: validatePhaseSlotSaturation.  The two Record<number, number>
objects are modelled by association lists in key-insertion order. -/

/-- Model of m[k] = (m[k] || 0) + v on a JS record: update in place when the
key exists, append the key otherwise. -/
def recAdd (m : List (Int × Int)) (k v : Int) : List (Int × Int) :=
  match m with
  | [] => [(k, v)]
  | (k0, v0) :: rest =>
    if k0 = k then (k0, v0 + v) :: rest else (k0, v0) :: recAdd rest k v

/-- Model of m[k] || 0 on a JS record. -/
def lookupRec (m : List (Int × Int)) (k : Int) : Int :=
  match m with
  | [] => 0
  | (k0, v0) :: rest => if k0 = k then v0 else lookupRec rest k

/-- Accumulate a list of key/increment pairs into a JS record. -/
def buildRec (prs : List (Int × Int)) : List (Int × Int) :=
  prs.foldl (fun m pr => recAdd m pr.1 pr.2) []

/-- Insert into an ascending list (used to model the numeric ordering JS
gives array-index keys in Object.keys). -/
def insertAsc (x : Int) : List Int → List Int
  | [] => [x]
  | y :: ys => if x ≤ y then x :: y :: ys else y :: insertAsc x ys

/-- Sort ascending by repeated insertion. -/
def sortAsc (l : List Int) : List Int := l.foldr insertAsc []

/-- Object.keys on a record with integer-like keys: array-index keys (the
non-negative ones) in ascending numeric order, then the remaining keys in
insertion order. -/
def jsKeys (m : List (Int × Int)) : List Int :=
  sortAsc ((m.map Prod.fst).filter fun k => 0 ≤ k)
    ++ (m.map Prod.fst).filter fun k => k < 0

/-- The key/increment pairs the capacity loop of validatePhaseSlotSaturation
feeds its record: one pair per occurrence of a phase in AvailableSlots. -/
def capacityPairs (workers : List Worker) : List (Int × Int) :=
  workers.flatMap fun w => w.AvailableSlots.map fun p => (p, w.MaxLoadPerPhase)

/-- The key/increment pairs the demand loop feeds its record: one pair per
occurrence of a phase in PreferredPhases. -/
def demandPairs (tasks : List Task) : List (Int × Int) :=
  tasks.flatMap fun t => t.PreferredPhases.map fun p => (p, t.Duration)

/-- Per-phase capacity actually accumulated by the engine: MaxLoadPerPhase
counted once per occurrence of the phase in a worker AvailableSlots list. -/
def phaseCapacityOf (workers : List Worker) (p : Int) : Int :=
  (workers.map fun w => (w.AvailableSlots.count p : Int) * w.MaxLoadPerPhase).sum

/-- Per-phase demand actually accumulated by the engine: Duration counted
once per occurrence of the phase in a task PreferredPhases list. -/
def phaseDemandOf (tasks : List Task) (p : Int) : Int :=
  (tasks.map fun t => (t.PreferredPhases.count p : Int) * t.Duration).sum

/-- validatePhaseSlotSaturation: build both records, then emit one warning
per demand key whose demand exceeds its capacity. -/
def validatePhaseSlotSaturation (workers : List Worker) (tasks : List Task) :
    List ValidationError :=
  let phaseCapacity := buildRec (capacityPairs workers)
  let phaseDemand := buildRec (demandPairs tasks)
  (jsKeys phaseDemand).flatMap fun phase =>
    let demand := lookupRec phaseDemand phase
    let capacity := lookupRec phaseCapacity phase
    if capacity < demand then [satDefect phase demand capacity] else []

/-- validateSkillCoverageMatrix: flag each (task, skill) pair whose skill no
worker offers. -/
def validateSkillCoverageMatrix (workers : List Worker) (tasks : List Task) :
    List ValidationError :=
  let workerSkills := workers.flatMap Worker.Skills
  tasks.flatMap fun t =>
    t.RequiredSkills.flatMap fun sk =>
      if sk ∈ workerSkills then [] else [mkMissingSkill t.TaskID sk]

/-- Number of workers whose skill list includes every required skill. -/
def qualifiedCount (workers : List Worker) (t : Task) : Nat :=
  (workers.filter fun w => t.RequiredSkills.all fun sk => w.Skills.contains sk).length

/-- validateMaxConcurrencyFeasibility. -/
def validateMaxConcurrencyFeasibility (workers : List Worker) (tasks : List Task) :
    List ValidationError :=
  tasks.flatMap fun t =>
    let q := qualifiedCount workers t
    if (q : Int) < t.MaxConcurrent then [mkMaxConc t.TaskID t.MaxConcurrent q] else []

/-- validateConflictingRules: documented placeholder, always empty. -/
def validateConflictingRules : List ValidationError := []

/-- validateAll: the fixed ordered battery of the twelve checks, their
outputs concatenated in source order. -/
def validateAll (rnd : Nat → String) (jsonOk : String → Bool)
    (clients : List Client) (workers : List Worker) (tasks : List Task) :
    List ValidationError :=
  (validateMissingRequiredColumns rnd clients workers tasks).1
    ++ validateDuplicateIDs clients workers tasks
    ++ validateMalformedLists workers
    ++ validateOutOfRangeValues clients workers tasks
    ++ validateBrokenJSON jsonOk clients
    ++ validateUnknownReferences clients tasks
    ++ validateCircularCoRunGroups
    ++ validateOverloadedWorkers workers
    ++ validatePhaseSlotSaturation workers tasks
    ++ validateSkillCoverageMatrix workers tasks
    ++ validateMaxConcurrencyFeasibility workers tasks
    ++ validateConflictingRules

/- Injectivity of the decimal stringification model, needed to read a phase
number back off the id field of a phase_saturation defect. -/

/-- Decode a little-endian digit list. -/
def decodeRev : List Nat → Nat
  | [] => 0
  | d :: ds => d + 10 * decodeRev ds

theorem decodeRev_natDigitsRev : ∀ f n, n ≤ f → decodeRev (natDigitsRev f n) = n := by
  intro f
  induction f with
  | zero =>
    intro n hn
    interval_cases n
    simp [natDigitsRev, decodeRev]
  | succ f ih =>
    intro n hn
    by_cases h : n < 10
    · simp [natDigitsRev, h, decodeRev]
    · have h10 : 10 ≤ n := Nat.le_of_not_lt h
      have hdiv : n / 10 ≤ f := by
        have : n / 10 < n := Nat.div_lt_self (by omega) (by omega)
        omega
      simp only [natDigitsRev, if_neg h, decodeRev, ih (n / 10) hdiv]
      omega

theorem natDigitsRev_lt_ten : ∀ f n d, d ∈ natDigitsRev f n → d < 10 := by
  intro f
  induction f with
  | zero =>
    intro n d hd
    simp only [natDigitsRev, List.mem_singleton] at hd
    omega
  | succ f ih =>
    intro n d hd
    by_cases h : n < 10
    · simp only [natDigitsRev, if_pos h, List.mem_singleton] at hd
      omega
    · simp only [natDigitsRev, if_neg h, List.mem_cons] at hd
      rcases hd with hd | hd
      · omega
      · exact ih _ _ hd

theorem digitChar_inj : ∀ a, a < 10 → ∀ b, b < 10 → digitChar a = digitChar b → a = b := by
  decide

theorem map_digitChar_inj :
    ∀ l1 l2 : List Nat, (∀ d ∈ l1, d < 10) → (∀ d ∈ l2, d < 10) →
      l1.map digitChar = l2.map digitChar → l1 = l2 := by
  intro l1
  induction l1 with
  | nil =>
    intro l2 _ _ h
    cases l2 with
    | nil => rfl
    | cons b bs => simp at h
  | cons a as ih =>
    intro l2 h1 h2 h
    cases l2 with
    | nil => simp at h
    | cons b bs =>
      simp only [List.map_cons, List.cons.injEq] at h
      have ha : a < 10 := h1 a (List.mem_cons_self a as)
      have hb : b < 10 := h2 b (List.mem_cons_self b bs)
      have hab : a = b := digitChar_inj a ha b hb h.1
      have : as = bs :=
        ih bs (fun d hd => h1 d (List.mem_cons_of_mem a hd))
          (fun d hd => h2 d (List.mem_cons_of_mem b hd)) h.2
      rw [hab, this]

theorem natDec_inj {a b : Nat} (h : natDec a = natDec b) : a = b := by
  unfold natDec at h
  have hdata := congrArg String.data h
  simp only [String.data] at hdata
  have hrev := map_digitChar_inj _ _
    (fun d hd => natDigitsRev_lt_ten _ _ d (List.mem_reverse.mp hd))
    (fun d hd => natDigitsRev_lt_ten _ _ d (List.mem_reverse.mp hd)) hdata
  have hlists : natDigitsRev a a = natDigitsRev b b :=
    List.reverse_injective hrev
  calc a = decodeRev (natDigitsRev a a) := (decodeRev_natDigitsRev a a le_rfl).symm
    _ = decodeRev (natDigitsRev b b) := by rw [hlists]
    _ = b := decodeRev_natDigitsRev b b le_rfl

theorem natDigitsRev_ne_nil : ∀ f n, natDigitsRev f n ≠ [] := by
  intro f n
  cases f with
  | zero => simp [natDigitsRev]
  | succ f =>
    by_cases h : n < 10 <;> simp [natDigitsRev, h]

theorem digitChar_ne_minus : ∀ d, d < 10 → digitChar d ≠ '-' := by
  decide

theorem natDec_head_digit (n : Nat) :
    ∃ d rest, d < 10 ∧ (natDec n).data = digitChar d :: rest := by
  unfold natDec
  rcases hds : (natDigitsRev n n).reverse with _ | ⟨d, rest⟩
  · exact absurd (List.reverse_eq_nil_iff.mp hds) (natDigitsRev_ne_nil n n)
  · refine ⟨d, rest.map digitChar, ?_, by simp⟩
    have : d ∈ natDigitsRev n n := by
      have : d ∈ (natDigitsRev n n).reverse := by rw [hds]; exact List.mem_cons_self d rest
      exact List.mem_reverse.mp this
    exact natDigitsRev_lt_ten _ _ _ this

/-- Two strings with the same character data are equal. -/
theorem string_data_inj {a b : String} (h : a.data = b.data) : a = b := by
  cases a
  cases b
  exact congrArg String.mk h

theorem intDec_inj {a b : Int} (h : intDec a = intDec b) : a = b := by
  cases a with
  | ofNat m =>
    cases b with
    | ofNat n =>
      simp only [intDec] at h
      rw [natDec_inj h]
    | negSucc n =>
      exfalso
      simp only [intDec] at h
      obtain ⟨d, rest, hd, hdata⟩ := natDec_head_digit m
      have := congrArg String.data h
      rw [hdata, String.data_append] at this
      have hminus : digitChar d = '-' := by
        have : digitChar d :: rest = '-' :: (natDec (n + 1)).data := this
        exact (List.cons.injEq _ _ _ _).mp this |>.1
      exact digitChar_ne_minus d hd hminus
  | negSucc m =>
    cases b with
    | ofNat n =>
      exfalso
      simp only [intDec] at h
      obtain ⟨d, rest, hd, hdata⟩ := natDec_head_digit n
      have := congrArg String.data h
      rw [hdata, String.data_append] at this
      have hminus : digitChar d = '-' := by
        have : '-' :: (natDec (m + 1)).data = digitChar d :: rest := this
        exact ((List.cons.injEq _ _ _ _).mp this |>.1).symm
      exact digitChar_ne_minus d hd hminus
    | negSucc n =>
      simp only [intDec] at h
      have := congrArg String.data h
      simp only [String.data_append] at this
      have hdd : (natDec (m + 1)).data = (natDec (n + 1)).data :=
        List.append_cancel_left this
      have hmn := natDec_inj (string_data_inj hdd)
      have : m = n := by omega
      rw [this]

/-- Left cancellation for string append, through the data lists. -/
theorem str_append_left_cancel {s a b : String} (h : s ++ a = s ++ b) : a = b := by
  have hd := congrArg String.data h
  simp only [String.data_append] at hd
  exact string_data_inj (List.append_cancel_left hd)

/- Generic list helpers for the forEach-push translation. -/

/-- A forEach body that pushes f a under a test equals filter-then-map. -/
theorem flatMap_if_eq_filter_map {α β : Type} (l : List α) (p : α → Prop)
    [DecidablePred p] (f : α → β) :
    (l.flatMap fun a => if p a then [f a] else [])
      = (l.filter fun a => decide (p a)).map f := by
  induction l with
  | nil => rfl
  | cons a as ih =>
    by_cases h : p a <;>
      simp [List.flatMap_cons, List.filter_cons, h, ih]

/-- A forEach body that pushes f a under the negation of a test. -/
theorem flatMap_ifneg_eq_filter_map {α β : Type} (l : List α) (p : α → Prop)
    [DecidablePred p] (f : α → β) :
    (l.flatMap fun a => if p a then [] else [f a])
      = (l.filter fun a => decide (¬ p a)).map f := by
  induction l with
  | nil => rfl
  | cons a as ih =>
    by_cases h : p a <;>
      simp [List.flatMap_cons, List.filter_cons, h, ih]

/-- Counting over a flatMap is the sum of the per-element counts. -/
theorem count_flatMap {α β : Type} [DecidableEq β] (l : List α) (f : α → List β) (b : β) :
    (l.flatMap f).count b = (l.map fun a => (f a).count b).sum := by
  induction l with
  | nil => rfl
  | cons a as ih => simp [List.flatMap_cons, List.count_append, ih]

/-- Membership in a conditional singleton forces the value and the guard. -/
theorem mem_ite_singleton {α : Type} {d v : α} {c : Prop} [Decidable c]
    (h : d ∈ if c then [v] else []) : d = v ∧ c := by
  by_cases hc : c
  · rw [if_pos hc] at h
    exact ⟨List.mem_singleton.mp h, hc⟩
  · rw [if_neg hc] at h
    simp at h

/-- Membership in a negatively guarded singleton. -/
theorem mem_ite_singleton_neg {α : Type} {d v : α} {c : Prop} [Decidable c]
    (h : d ∈ if c then [] else [v]) : d = v ∧ ¬c := by
  by_cases hc : c
  · rw [if_pos hc] at h
    simp at h
  · rw [if_neg hc] at h
    exact ⟨List.mem_singleton.mp h, hc⟩

/- Shape lemmas: the type, entity and severity of every defect a given check
can emit, read off its push sites. -/

theorem shape_missingClient (rnd : Nat → String) :
    ∀ (l : List Client) (k : Nat) (d : ValidationError),
      d ∈ (missingClientErrors rnd l k).1 →
        d.type = "missing_required_field" ∧ d.entity = "clients" ∧
          d.severity = Severity.error ∧ (d.field = "ClientID" ∨ d.field = "ClientName") := by
  intro l
  induction l with
  | nil =>
    intro k d h
    simp [missingClientErrors] at h
  | cons c rest ih =>
    intro k d h
    by_cases h1 : c.ClientID = "" <;> by_cases h2 : c.ClientName = "" <;>
      simp only [missingClientErrors, h1, h2, if_true, if_false, ite_true, ite_false,
        List.mem_append, List.mem_singleton, List.mem_cons, List.not_mem_nil,
        List.nil_append, List.cons_append, List.singleton_append, false_or, or_false] at h
    · rcases h with rfl | rfl | h
      · exact ⟨rfl, rfl, rfl, Or.inl rfl⟩
      · exact ⟨rfl, rfl, rfl, Or.inr rfl⟩
      · exact ih _ _ h
    · rcases h with rfl | h
      · exact ⟨rfl, rfl, rfl, Or.inl rfl⟩
      · exact ih _ _ h
    · rcases h with rfl | h
      · exact ⟨rfl, rfl, rfl, Or.inr rfl⟩
      · exact ih _ _ h
    · exact ih _ _ h

theorem shape_missingWorker (rnd : Nat → String) :
    ∀ (l : List Worker) (k : Nat) (d : ValidationError),
      d ∈ (missingWorkerErrors rnd l k).1 →
        d.type = "missing_required_field" ∧ d.entity = "workers" ∧
          d.severity = Severity.error := by
  intro l
  induction l with
  | nil =>
    intro k d h
    simp [missingWorkerErrors] at h
  | cons w rest ih =>
    intro k d h
    by_cases h1 : w.WorkerID = "" <;> by_cases h2 : w.WorkerName = "" <;>
      simp only [missingWorkerErrors, h1, h2, if_true, if_false, ite_true, ite_false,
        List.mem_append, List.mem_singleton, List.mem_cons, List.not_mem_nil,
        List.nil_append, List.cons_append, List.singleton_append, false_or, or_false] at h
    · rcases h with rfl | rfl | h
      · exact ⟨rfl, rfl, rfl⟩
      · exact ⟨rfl, rfl, rfl⟩
      · exact ih _ _ h
    · rcases h with rfl | h
      · exact ⟨rfl, rfl, rfl⟩
      · exact ih _ _ h
    · rcases h with rfl | h
      · exact ⟨rfl, rfl, rfl⟩
      · exact ih _ _ h
    · exact ih _ _ h

theorem shape_missingTask (rnd : Nat → String) :
    ∀ (l : List Task) (k : Nat) (d : ValidationError),
      d ∈ (missingTaskErrors rnd l k).1 →
        d.type = "missing_required_field" ∧ d.entity = "tasks" ∧
          d.severity = Severity.error := by
  intro l
  induction l with
  | nil =>
    intro k d h
    simp [missingTaskErrors] at h
  | cons t rest ih =>
    intro k d h
    by_cases h1 : t.TaskID = "" <;> by_cases h2 : t.TaskName = "" <;>
      simp only [missingTaskErrors, h1, h2, if_true, if_false, ite_true, ite_false,
        List.mem_append, List.mem_singleton, List.mem_cons, List.not_mem_nil,
        List.nil_append, List.cons_append, List.singleton_append, false_or, or_false] at h
    · rcases h with rfl | rfl | h
      · exact ⟨rfl, rfl, rfl⟩
      · exact ⟨rfl, rfl, rfl⟩
      · exact ih _ _ h
    · rcases h with rfl | h
      · exact ⟨rfl, rfl, rfl⟩
      · exact ih _ _ h
    · rcases h with rfl | h
      · exact ⟨rfl, rfl, rfl⟩
      · exact ih _ _ h
    · exact ih _ _ h

theorem shape_missing (rnd : Nat → String) (clients : List Client)
    (workers : List Worker) (tasks : List Task) (d : ValidationError)
    (h : d ∈ (validateMissingRequiredColumns rnd clients workers tasks).1) :
    d.type = "missing_required_field" ∧ d.severity = Severity.error := by
  simp only [validateMissingRequiredColumns, List.mem_append] at h
  rcases h with (h | h) | h
  · obtain ⟨h1, -, h3, -⟩ := shape_missingClient rnd clients 0 d h
    exact ⟨h1, h3⟩
  · obtain ⟨h1, -, h3⟩ := shape_missingWorker rnd workers _ d h
    exact ⟨h1, h3⟩
  · obtain ⟨h1, -, h3⟩ := shape_missingTask rnd tasks _ d h
    exact ⟨h1, h3⟩

/-- Every defect a duplicate scan emits is in the range of its constructor. -/
theorem shape_dupScan {α : Type} (mk : String → ValidationError) (getId : α → String) :
    ∀ (seen : List String) (l : List α) (d : ValidationError),
      d ∈ dupScan mk getId seen l → ∃ x, d = mk x := by
  intro seen l
  induction l generalizing seen with
  | nil =>
    intro d h
    simp [dupScan] at h
  | cons x rest ih =>
    intro d h
    simp only [dupScan, List.mem_append] at h
    rcases h with h | h
    · obtain ⟨rfl, -⟩ := mem_ite_singleton h
      exact ⟨getId x, rfl⟩
    · exact ih _ d h

theorem shape_duplicate (clients : List Client) (workers : List Worker)
    (tasks : List Task) (d : ValidationError)
    (h : d ∈ validateDuplicateIDs clients workers tasks) :
    d.type = "duplicate_id" ∧ d.severity = Severity.error := by
  simp only [validateDuplicateIDs, List.mem_append] at h
  rcases h with (h | h) | h
  · obtain ⟨x, rfl⟩ := shape_dupScan dupClientDefect Client.ClientID [] clients d h
    exact ⟨rfl, rfl⟩
  · obtain ⟨x, rfl⟩ := shape_dupScan dupWorkerDefect Worker.WorkerID [] workers d h
    exact ⟨rfl, rfl⟩
  · obtain ⟨x, rfl⟩ := shape_dupScan dupTaskDefect Task.TaskID [] tasks d h
    exact ⟨rfl, rfl⟩

theorem shape_malformed (workers : List Worker) (d : ValidationError)
    (h : d ∈ validateMalformedLists workers) :
    d.type = "malformed_list" ∧ d.entity = "workers" ∧ d.severity = Severity.error := by
  simp only [validateMalformedLists, List.mem_flatMap] at h
  obtain ⟨w, -, slot, -, h⟩ := h
  obtain ⟨rfl, -⟩ := mem_ite_singleton h
  exact ⟨rfl, rfl, rfl⟩

theorem shape_outOfRange (clients : List Client) (workers : List Worker)
    (tasks : List Task) (d : ValidationError)
    (h : d ∈ validateOutOfRangeValues clients workers tasks) :
    d.type = "out_of_range" ∧ d.severity = Severity.error := by
  simp only [validateOutOfRangeValues, List.mem_append, List.mem_flatMap] at h
  rcases h with (⟨c, -, h⟩ | ⟨t, -, h⟩) | ⟨w, -, h⟩ <;>
    obtain ⟨rfl, -⟩ := mem_ite_singleton h <;> exact ⟨rfl, rfl⟩

theorem shape_brokenJson (jsonOk : String → Bool) (clients : List Client)
    (d : ValidationError) (h : d ∈ validateBrokenJSON jsonOk clients) :
    d.type = "broken_json" ∧ d.severity = Severity.error := by
  simp only [validateBrokenJSON, List.mem_flatMap] at h
  obtain ⟨c, -, h⟩ := h
  obtain ⟨rfl, -⟩ := mem_ite_singleton_neg h
  exact ⟨rfl, rfl⟩

theorem shape_unknownRef (clients : List Client) (tasks : List Task)
    (d : ValidationError) (h : d ∈ validateUnknownReferences clients tasks) :
    d.type = "unknown_reference" ∧ d.severity = Severity.error := by
  simp only [validateUnknownReferences, List.mem_flatMap] at h
  obtain ⟨c, -, tid, -, h⟩ := h
  obtain ⟨rfl, -⟩ := mem_ite_singleton_neg h
  exact ⟨rfl, rfl⟩

theorem shape_overloaded (workers : List Worker) (d : ValidationError)
    (h : d ∈ validateOverloadedWorkers workers) :
    d.type = "overloaded_worker" ∧ d.severity = Severity.warning := by
  simp only [validateOverloadedWorkers, List.mem_flatMap] at h
  obtain ⟨w, -, h⟩ := h
  obtain ⟨rfl, -⟩ := mem_ite_singleton h
  exact ⟨rfl, rfl⟩

theorem shape_saturation (workers : List Worker) (tasks : List Task)
    (d : ValidationError) (h : d ∈ validatePhaseSlotSaturation workers tasks) :
    d.type = "phase_saturation" ∧ d.severity = Severity.warning := by
  simp only [validatePhaseSlotSaturation, List.mem_flatMap] at h
  obtain ⟨p, -, h⟩ := h
  obtain ⟨rfl, -⟩ := mem_ite_singleton h
  exact ⟨rfl, rfl⟩

theorem shape_skillCoverage (workers : List Worker) (tasks : List Task)
    (d : ValidationError) (h : d ∈ validateSkillCoverageMatrix workers tasks) :
    d.type = "skill_coverage" ∧ d.severity = Severity.error := by
  simp only [validateSkillCoverageMatrix, List.mem_flatMap] at h
  obtain ⟨t, -, sk, -, h⟩ := h
  obtain ⟨rfl, -⟩ := mem_ite_singleton_neg h
  exact ⟨rfl, rfl⟩

theorem shape_maxConc (workers : List Worker) (tasks : List Task)
    (d : ValidationError) (h : d ∈ validateMaxConcurrencyFeasibility workers tasks) :
    d.type = "max_concurrency" ∧ d.severity = Severity.warning := by
  simp only [validateMaxConcurrencyFeasibility, List.mem_flatMap] at h
  obtain ⟨t, -, h⟩ := h
  obtain ⟨rfl, -⟩ := mem_ite_singleton h
  exact ⟨rfl, rfl⟩

/-- A list none of whose members equal v contains no copy of v. -/
theorem count_eq_zero_of_forall_ne {l : List ValidationError} {v : ValidationError}
    (h : ∀ d ∈ l, d ≠ v) : l.count v = 0 :=
  List.count_eq_zero.mpr fun hm => (h v hm) rfl

/-- A list whose members all have a different type field contains no copy of v. -/
theorem count_eq_zero_of_type_ne {l : List ValidationError} {v : ValidationError}
    (h : ∀ d ∈ l, d.type ≠ v.type) : l.count v = 0 :=
  count_eq_zero_of_forall_ne fun d hd he => h d hd (he ▸ rfl)

/-- Multiplicities in validateAll split over the twelve checks. -/
theorem count_validateAll (rnd : Nat → String) (jsonOk : String → Bool)
    (clients : List Client) (workers : List Worker) (tasks : List Task)
    (v : ValidationError) :
    (validateAll rnd jsonOk clients workers tasks).count v
      = (validateMissingRequiredColumns rnd clients workers tasks).1.count v
        + (validateDuplicateIDs clients workers tasks).count v
        + (validateMalformedLists workers).count v
        + (validateOutOfRangeValues clients workers tasks).count v
        + (validateBrokenJSON jsonOk clients).count v
        + (validateUnknownReferences clients tasks).count v
        + (validateOverloadedWorkers workers).count v
        + (validatePhaseSlotSaturation workers tasks).count v
        + (validateSkillCoverageMatrix workers tasks).count v
        + (validateMaxConcurrencyFeasibility workers tasks).count v := by
  simp only [validateAll, List.count_append, validateCircularCoRunGroups,
    validateConflictingRules, List.count_nil]
  omega

/- Claim C9. -/

/-- C9: every Defect validateAll returns has severity error or warning; the
info severity admitted by the ValidationError type is never emitted. -/
theorem validateAll_no_info_severity (rnd : Nat → String) (jsonOk : String → Bool)
    (clients : List Client) (workers : List Worker) (tasks : List Task) :
    ∀ d ∈ validateAll rnd jsonOk clients workers tasks,
      d.severity = Severity.error ∨ d.severity = Severity.warning := by
  intro d h
  simp only [validateAll, List.mem_append, validateCircularCoRunGroups,
    validateConflictingRules, List.not_mem_nil, or_false, false_or] at h
  rcases h with ((((((((h | h) | h) | h) | h) | h) | h) | h) | h) | h
  · exact Or.inl (shape_missing rnd clients workers tasks d h).2
  · exact Or.inl (shape_duplicate clients workers tasks d h).2
  · exact Or.inl (shape_malformed workers d h).2.2
  · exact Or.inl (shape_outOfRange clients workers tasks d h).2
  · exact Or.inl (shape_brokenJson jsonOk clients d h).2
  · exact Or.inl (shape_unknownRef clients tasks d h).2
  · exact Or.inr (shape_overloaded workers d h).2
  · exact Or.inr (shape_saturation workers tasks d h).2
  · exact Or.inl (shape_skillCoverage workers tasks d h).2
  · exact Or.inr (shape_maxConc workers tasks d h).2

/-- Fixed stream standing in for the stringified Math.random() draws. -/
def rnd0 : Nat → String := fun _ => "0.5"

/-- Second stream, as a later invocation would observe. -/
def rnd1 : Nat → String := fun _ => "0.25"

/-- A JSON.parse behaviour that accepts every blob. -/
def jsonOk0 : String → Bool := fun _ => true

/-- Sample client with an out-of-range priority. -/
def cBadPriority : Client :=
  { ClientID := "C1", ClientName := "Acme", PriorityLevel := 0,
    RequestedTaskIDs := [], GroupTag := "", AttributesJSON := "" }

/-- C9 witness: the out-of-range defect of cBadPriority is in the output of a
concrete run, and the theorem yields its severity. -/
theorem validateAll_no_info_severity_witness :
    (mkBadPriority cBadPriority).severity = Severity.error ∨
      (mkBadPriority cBadPriority).severity = Severity.warning :=
  validateAll_no_info_severity rnd0 jsonOk0 [cBadPriority] [] []
    (mkBadPriority cBadPriority) (by decide)

/- Claim C3: duplicate identifiers. -/

/-- Multiplicity of a given duplicate defect produced by a duplicate scan:
one per occurrence of the identifier beyond the first, or one per occurrence
when the identifier was already in the seen set. -/
theorem count_dupScan {α : Type} (mk : String → ValidationError) (getId : α → String)
    (hinj : ∀ x y, mk x = mk y → x = y) :
    ∀ (l : List α) (seen : List String) (x : String),
      (dupScan mk getId seen l).count (mk x)
        = if x ∈ seen then (l.map getId).count x else (l.map getId).count x - 1 := by
  intro l
  induction l with
  | nil =>
    intro seen x
    simp [dupScan]
  | cons a rest ih =>
    intro seen x
    have hcc : List.count x (List.map getId (a :: rest))
        = List.count x (List.map getId rest) + (if getId a = x then 1 else 0) := by
      simp [List.count_cons]
    simp only [dupScan, List.count_append]
    rw [ih (getId a :: seen) x, hcc]
    by_cases hax : getId a = x
    · have hmem : x ∈ getId a :: seen := List.mem_cons.mpr (Or.inl hax.symm)
      rw [if_pos hmem, if_pos hax]
      by_cases hs : getId a ∈ seen
      · have hxs : x ∈ seen := hax ▸ hs
        rw [if_pos hs, if_pos hxs]
        have h1 : List.count (mk x) [mk (getId a)] = 1 := by rw [hax]; simp
        rw [h1]
        omega
      · have hxs : x ∉ seen := fun hc => hs (by rw [hax]; exact hc)
        rw [if_neg hs, if_neg hxs]
        simp only [List.count_nil]
        omega
    · have hne : mk (getId a) ≠ mk x := fun hc => hax (hinj _ _ hc)
      have hmem : (x ∈ getId a :: seen) ↔ x ∈ seen := by
        constructor
        · intro h
          rcases List.mem_cons.mp h with h | h
          · exact absurd h.symm hax
          · exact h
        · exact fun h => List.mem_cons_of_mem _ h
      rw [if_neg hax]
      have hemit : List.count (mk x) (if getId a ∈ seen then [mk (getId a)] else []) = 0 := by
        by_cases hs : getId a ∈ seen
        · rw [if_pos hs]
          simp [List.count_cons, hne]
        · rw [if_neg hs]
          simp
      rw [hemit]
      by_cases hs : x ∈ seen
      · rw [if_pos (hmem.mpr hs), if_pos hs]
        omega
      · rw [if_neg (fun hc => hs (hmem.mp hc)), if_neg hs]
        omega

/-- dupClientDefect is injective (the entityId field carries the id). -/
theorem dupClientDefect_inj : ∀ x y, dupClientDefect x = dupClientDefect y → x = y :=
  fun _ _ h => congrArg ValidationError.entityId h

/-- dupWorkerDefect is injective. -/
theorem dupWorkerDefect_inj : ∀ x y, dupWorkerDefect x = dupWorkerDefect y → x = y :=
  fun _ _ h => congrArg ValidationError.entityId h

/-- dupTaskDefect is injective. -/
theorem dupTaskDefect_inj : ∀ x y, dupTaskDefect x = dupTaskDefect y → x = y :=
  fun _ _ h => congrArg ValidationError.entityId h

/-- The only check contributing copies of a duplicate defect is check 2. -/
theorem count_dup_in_validateAll (rnd : Nat → String) (jsonOk : String → Bool)
    (clients : List Client) (workers : List Worker) (tasks : List Task)
    (v : ValidationError) (hv : v.type = "duplicate_id") :
    (validateAll rnd jsonOk clients workers tasks).count v
      = (validateDuplicateIDs clients workers tasks).count v := by
  rw [count_validateAll]
  have z1 : (validateMissingRequiredColumns rnd clients workers tasks).1.count v = 0 :=
    count_eq_zero_of_type_ne fun d hd => by
      rw [(shape_missing rnd clients workers tasks d hd).1, hv]; decide
  have z3 : (validateMalformedLists workers).count v = 0 :=
    count_eq_zero_of_type_ne fun d hd => by
      rw [(shape_malformed workers d hd).1, hv]; decide
  have z4 : (validateOutOfRangeValues clients workers tasks).count v = 0 :=
    count_eq_zero_of_type_ne fun d hd => by
      rw [(shape_outOfRange clients workers tasks d hd).1, hv]; decide
  have z5 : (validateBrokenJSON jsonOk clients).count v = 0 :=
    count_eq_zero_of_type_ne fun d hd => by
      rw [(shape_brokenJson jsonOk clients d hd).1, hv]; decide
  have z6 : (validateUnknownReferences clients tasks).count v = 0 :=
    count_eq_zero_of_type_ne fun d hd => by
      rw [(shape_unknownRef clients tasks d hd).1, hv]; decide
  have z8 : (validateOverloadedWorkers workers).count v = 0 :=
    count_eq_zero_of_type_ne fun d hd => by
      rw [(shape_overloaded workers d hd).1, hv]; decide
  have z9 : (validatePhaseSlotSaturation workers tasks).count v = 0 :=
    count_eq_zero_of_type_ne fun d hd => by
      rw [(shape_saturation workers tasks d hd).1, hv]; decide
  have z10 : (validateSkillCoverageMatrix workers tasks).count v = 0 :=
    count_eq_zero_of_type_ne fun d hd => by
      rw [(shape_skillCoverage workers tasks d hd).1, hv]; decide
  have z11 : (validateMaxConcurrencyFeasibility workers tasks).count v = 0 :=
    count_eq_zero_of_type_ne fun d hd => by
      rw [(shape_maxConc workers tasks d hd).1, hv]; decide
  omega

/-- Within check 2, a client duplicate defect only arises from the client scan. -/
theorem count_dupClient_segment (clients : List Client) (workers : List Worker)
    (tasks : List Task) (x : String) :
    (validateDuplicateIDs clients workers tasks).count (dupClientDefect x)
      = (clients.map Client.ClientID).count x - 1 := by
  have zw : (dupScan dupWorkerDefect Worker.WorkerID [] workers).count (dupClientDefect x) = 0 :=
    count_eq_zero_of_forall_ne fun d hd he => by
      obtain ⟨y, rfl⟩ := shape_dupScan dupWorkerDefect Worker.WorkerID [] workers d hd
      have := congrArg ValidationError.entity he
      simp [dupWorkerDefect, dupClientDefect] at this
  have zt : (dupScan dupTaskDefect Task.TaskID [] tasks).count (dupClientDefect x) = 0 :=
    count_eq_zero_of_forall_ne fun d hd he => by
      obtain ⟨y, rfl⟩ := shape_dupScan dupTaskDefect Task.TaskID [] tasks d hd
      have := congrArg ValidationError.entity he
      simp [dupTaskDefect, dupClientDefect] at this
  have hc := count_dupScan dupClientDefect Client.ClientID dupClientDefect_inj clients [] x
  simp only [List.not_mem_nil, if_false, ite_false] at hc
  simp only [validateDuplicateIDs, List.count_append, zw, zt, hc]
  omega

/-- Worker analogue of count_dupClient_segment. -/
theorem count_dupWorker_segment (clients : List Client) (workers : List Worker)
    (tasks : List Task) (x : String) :
    (validateDuplicateIDs clients workers tasks).count (dupWorkerDefect x)
      = (workers.map Worker.WorkerID).count x - 1 := by
  have zc : (dupScan dupClientDefect Client.ClientID [] clients).count (dupWorkerDefect x) = 0 :=
    count_eq_zero_of_forall_ne fun d hd he => by
      obtain ⟨y, rfl⟩ := shape_dupScan dupClientDefect Client.ClientID [] clients d hd
      have := congrArg ValidationError.entity he
      simp [dupWorkerDefect, dupClientDefect] at this
  have zt : (dupScan dupTaskDefect Task.TaskID [] tasks).count (dupWorkerDefect x) = 0 :=
    count_eq_zero_of_forall_ne fun d hd he => by
      obtain ⟨y, rfl⟩ := shape_dupScan dupTaskDefect Task.TaskID [] tasks d hd
      have := congrArg ValidationError.entity he
      simp [dupTaskDefect, dupWorkerDefect] at this
  have hw := count_dupScan dupWorkerDefect Worker.WorkerID dupWorkerDefect_inj workers [] x
  simp only [List.not_mem_nil, if_false, ite_false] at hw
  simp only [validateDuplicateIDs, List.count_append, zc, zt, hw]
  omega

/-- Task analogue of count_dupClient_segment. -/
theorem count_dupTask_segment (clients : List Client) (workers : List Worker)
    (tasks : List Task) (x : String) :
    (validateDuplicateIDs clients workers tasks).count (dupTaskDefect x)
      = (tasks.map Task.TaskID).count x - 1 := by
  have zc : (dupScan dupClientDefect Client.ClientID [] clients).count (dupTaskDefect x) = 0 :=
    count_eq_zero_of_forall_ne fun d hd he => by
      obtain ⟨y, rfl⟩ := shape_dupScan dupClientDefect Client.ClientID [] clients d hd
      have := congrArg ValidationError.entity he
      simp [dupTaskDefect, dupClientDefect] at this
  have zw : (dupScan dupWorkerDefect Worker.WorkerID [] workers).count (dupTaskDefect x) = 0 :=
    count_eq_zero_of_forall_ne fun d hd he => by
      obtain ⟨y, rfl⟩ := shape_dupScan dupWorkerDefect Worker.WorkerID [] workers d hd
      have := congrArg ValidationError.entity he
      simp [dupWorkerDefect, dupTaskDefect] at this
  have ht := count_dupScan dupTaskDefect Task.TaskID dupTaskDefect_inj tasks [] x
  simp only [List.not_mem_nil, if_false, ite_false] at ht
  simp only [validateDuplicateIDs, List.count_append, zc, zw, ht]
  omega

/-- C3: for every identifier x and each collection independently, validateAll
contains exactly one fewer duplicate defect for x than x has occurrences, so
the first occurrence is never flagged and every repeat is; when exactly two
records share x the result carries exactly one duplicate defect for x. -/
theorem validateAll_duplicate_counts (rnd : Nat → String) (jsonOk : String → Bool)
    (clients : List Client) (workers : List Worker) (tasks : List Task) (x : String) :
    (validateAll rnd jsonOk clients workers tasks).count (dupClientDefect x)
        = (clients.map Client.ClientID).count x - 1
      ∧ (validateAll rnd jsonOk clients workers tasks).count (dupWorkerDefect x)
        = (workers.map Worker.WorkerID).count x - 1
      ∧ (validateAll rnd jsonOk clients workers tasks).count (dupTaskDefect x)
        = (tasks.map Task.TaskID).count x - 1 := by
  refine ⟨?_, ?_, ?_⟩
  · rw [count_dup_in_validateAll rnd jsonOk clients workers tasks _ rfl]
    exact count_dupClient_segment clients workers tasks x
  · rw [count_dup_in_validateAll rnd jsonOk clients workers tasks _ rfl]
    exact count_dupWorker_segment clients workers tasks x
  · rw [count_dup_in_validateAll rnd jsonOk clients workers tasks _ rfl]
    exact count_dupTask_segment clients workers tasks x

/- Claim C10: duplicate detection does not exempt empty identifiers, while
check 1 also reports them as missing required fields. -/

theorem exists_missingClient (rnd : Nat → String) :
    ∀ (l : List Client) (k : Nat), (∃ c ∈ l, c.ClientID = "") →
      ∃ d ∈ (missingClientErrors rnd l k).1,
        d.type = "missing_required_field" ∧ d.entity = "clients" ∧ d.field = "ClientID" := by
  intro l
  induction l with
  | nil =>
    rintro k ⟨c, hc, -⟩
    simp at hc
  | cons c rest ih =>
    rintro k ⟨c0, hc0, hid⟩
    rcases List.mem_cons.mp hc0 with rfl | hmem
    · refine ⟨mkMissingClientId (rnd k), ?_, rfl, rfl, rfl⟩
      by_cases h2 : c0.ClientName = "" <;> simp [missingClientErrors, hid, h2]
    · by_cases h1 : c.ClientID = ""
      · by_cases h2 : c.ClientName = ""
        · obtain ⟨d, hd, hp⟩ := ih (k + 1 + 1) ⟨c0, hmem, hid⟩
          exact ⟨d, by simp [missingClientErrors, h1, h2]; tauto, hp⟩
        · obtain ⟨d, hd, hp⟩ := ih (k + 1) ⟨c0, hmem, hid⟩
          exact ⟨d, by simp [missingClientErrors, h1, h2]; tauto, hp⟩
      · by_cases h2 : c.ClientName = ""
        · obtain ⟨d, hd, hp⟩ := ih (k + 1) ⟨c0, hmem, hid⟩
          exact ⟨d, by simp [missingClientErrors, h1, h2]; tauto, hp⟩
        · obtain ⟨d, hd, hp⟩ := ih k ⟨c0, hmem, hid⟩
          exact ⟨d, by simp [missingClientErrors, h1, h2]; tauto, hp⟩

theorem exists_missingWorker (rnd : Nat → String) :
    ∀ (l : List Worker) (k : Nat), (∃ w ∈ l, w.WorkerID = "") →
      ∃ d ∈ (missingWorkerErrors rnd l k).1,
        d.type = "missing_required_field" ∧ d.entity = "workers" ∧ d.field = "WorkerID" := by
  intro l
  induction l with
  | nil =>
    rintro k ⟨w, hw, -⟩
    simp at hw
  | cons w rest ih =>
    rintro k ⟨w0, hw0, hid⟩
    rcases List.mem_cons.mp hw0 with rfl | hmem
    · refine ⟨mkMissingWorkerId (rnd k), ?_, rfl, rfl, rfl⟩
      by_cases h2 : w0.WorkerName = "" <;> simp [missingWorkerErrors, hid, h2]
    · by_cases h1 : w.WorkerID = ""
      · by_cases h2 : w.WorkerName = ""
        · obtain ⟨d, hd, hp⟩ := ih (k + 1 + 1) ⟨w0, hmem, hid⟩
          exact ⟨d, by simp [missingWorkerErrors, h1, h2]; tauto, hp⟩
        · obtain ⟨d, hd, hp⟩ := ih (k + 1) ⟨w0, hmem, hid⟩
          exact ⟨d, by simp [missingWorkerErrors, h1, h2]; tauto, hp⟩
      · by_cases h2 : w.WorkerName = ""
        · obtain ⟨d, hd, hp⟩ := ih (k + 1) ⟨w0, hmem, hid⟩
          exact ⟨d, by simp [missingWorkerErrors, h1, h2]; tauto, hp⟩
        · obtain ⟨d, hd, hp⟩ := ih k ⟨w0, hmem, hid⟩
          exact ⟨d, by simp [missingWorkerErrors, h1, h2]; tauto, hp⟩

theorem exists_missingTask (rnd : Nat → String) :
    ∀ (l : List Task) (k : Nat), (∃ t ∈ l, t.TaskID = "") →
      ∃ d ∈ (missingTaskErrors rnd l k).1,
        d.type = "missing_required_field" ∧ d.entity = "tasks" ∧ d.field = "TaskID" := by
  intro l
  induction l with
  | nil =>
    rintro k ⟨t, ht, -⟩
    simp at ht
  | cons t rest ih =>
    rintro k ⟨t0, ht0, hid⟩
    rcases List.mem_cons.mp ht0 with rfl | hmem
    · refine ⟨mkMissingTaskId (rnd k), ?_, rfl, rfl, rfl⟩
      by_cases h2 : t0.TaskName = "" <;> simp [missingTaskErrors, hid, h2]
    · by_cases h1 : t.TaskID = ""
      · by_cases h2 : t.TaskName = ""
        · obtain ⟨d, hd, hp⟩ := ih (k + 1 + 1) ⟨t0, hmem, hid⟩
          exact ⟨d, by simp [missingTaskErrors, h1, h2]; tauto, hp⟩
        · obtain ⟨d, hd, hp⟩ := ih (k + 1) ⟨t0, hmem, hid⟩
          exact ⟨d, by simp [missingTaskErrors, h1, h2]; tauto, hp⟩
      · by_cases h2 : t.TaskName = ""
        · obtain ⟨d, hd, hp⟩ := ih (k + 1) ⟨t0, hmem, hid⟩
          exact ⟨d, by simp [missingTaskErrors, h1, h2]; tauto, hp⟩
        · obtain ⟨d, hd, hp⟩ := ih k ⟨t0, hmem, hid⟩
          exact ⟨d, by simp [missingTaskErrors, h1, h2]; tauto, hp⟩

/-- Lift membership in a check segment into membership in validateAll. -/
theorem mem_validateAll_of_mem_missing (rnd : Nat → String) (jsonOk : String → Bool)
    (clients : List Client) (workers : List Worker) (tasks : List Task)
    {d : ValidationError}
    (h : d ∈ (validateMissingRequiredColumns rnd clients workers tasks).1) :
    d ∈ validateAll rnd jsonOk clients workers tasks := by
  simp only [validateAll, List.mem_append]
  tauto

/-- C10: when two or more records of a collection carry the empty identifier,
every record beyond the first yields a duplicate defect for the empty id, and
check 1 meanwhile reports the empty identifier as a missing required field. -/
theorem duplicate_flags_empty_ids (rnd : Nat → String) (jsonOk : String → Bool)
    (clients : List Client) (workers : List Worker) (tasks : List Task) :
    (2 ≤ (clients.map Client.ClientID).count "" →
        (validateAll rnd jsonOk clients workers tasks).count (dupClientDefect "")
            = (clients.map Client.ClientID).count "" - 1
          ∧ ∃ d ∈ validateAll rnd jsonOk clients workers tasks,
              d.type = "missing_required_field" ∧ d.entity = "clients" ∧ d.field = "ClientID")
      ∧ (2 ≤ (workers.map Worker.WorkerID).count "" →
        (validateAll rnd jsonOk clients workers tasks).count (dupWorkerDefect "")
            = (workers.map Worker.WorkerID).count "" - 1
          ∧ ∃ d ∈ validateAll rnd jsonOk clients workers tasks,
              d.type = "missing_required_field" ∧ d.entity = "workers" ∧ d.field = "WorkerID")
      ∧ (2 ≤ (tasks.map Task.TaskID).count "" →
        (validateAll rnd jsonOk clients workers tasks).count (dupTaskDefect "")
            = (tasks.map Task.TaskID).count "" - 1
          ∧ ∃ d ∈ validateAll rnd jsonOk clients workers tasks,
              d.type = "missing_required_field" ∧ d.entity = "tasks" ∧ d.field = "TaskID") := by
  refine ⟨fun h => ⟨?_, ?_⟩, fun h => ⟨?_, ?_⟩, fun h => ⟨?_, ?_⟩⟩
  · rw [count_dup_in_validateAll rnd jsonOk clients workers tasks _ rfl]
    exact count_dupClient_segment clients workers tasks ""
  · have hmem : "" ∈ clients.map Client.ClientID := by
      rw [← List.count_pos_iff]
      omega
    obtain ⟨c, hc, hid⟩ := List.mem_map.mp hmem
    obtain ⟨d, hd, hp⟩ := exists_missingClient rnd clients 0 ⟨c, hc, hid⟩
    have hd2 : d ∈ (validateMissingRequiredColumns rnd clients workers tasks).1 := by
      simp only [validateMissingRequiredColumns, List.mem_append]
      tauto
    exact ⟨d, mem_validateAll_of_mem_missing rnd jsonOk clients workers tasks hd2, hp⟩
  · rw [count_dup_in_validateAll rnd jsonOk clients workers tasks _ rfl]
    exact count_dupWorker_segment clients workers tasks ""
  · have hmem : "" ∈ workers.map Worker.WorkerID := by
      rw [← List.count_pos_iff]
      omega
    obtain ⟨w, hw, hid⟩ := List.mem_map.mp hmem
    obtain ⟨d, hd, hp⟩ := exists_missingWorker rnd workers _ ⟨w, hw, hid⟩
    have hd2 : d ∈ (validateMissingRequiredColumns rnd clients workers tasks).1 := by
      simp only [validateMissingRequiredColumns, List.mem_append]
      tauto
    exact ⟨d, mem_validateAll_of_mem_missing rnd jsonOk clients workers tasks hd2, hp⟩
  · rw [count_dup_in_validateAll rnd jsonOk clients workers tasks _ rfl]
    exact count_dupTask_segment clients workers tasks ""
  · have hmem : "" ∈ tasks.map Task.TaskID := by
      rw [← List.count_pos_iff]
      omega
    obtain ⟨t, ht, hid⟩ := List.mem_map.mp hmem
    obtain ⟨d, hd, hp⟩ := exists_missingTask rnd tasks _ ⟨t, ht, hid⟩
    have hd2 : d ∈ (validateMissingRequiredColumns rnd clients workers tasks).1 := by
      simp only [validateMissingRequiredColumns, List.mem_append]
      tauto
    exact ⟨d, mem_validateAll_of_mem_missing rnd jsonOk clients workers tasks hd2, hp⟩

/-- Sample client with empty identifier. -/
def cEmpty : Client :=
  { ClientID := "", ClientName := "A", PriorityLevel := 2,
    RequestedTaskIDs := [], GroupTag := "", AttributesJSON := "" }

/-- Sample worker with empty identifier. -/
def wEmpty : Worker :=
  { WorkerID := "", WorkerName := "B", Skills := [], AvailableSlots := [1],
    MaxLoadPerPhase := 1, WorkerGroup := "", QualificationLevel := 1 }

/-- Sample task with empty identifier. -/
def tEmpty : Task :=
  { TaskID := "", TaskName := "C", Category := "", Duration := 1,
    RequiredSkills := [], PreferredPhases := [], MaxConcurrent := 0 }

/-- C10 witness: two records with empty id in each collection; the second of
each pair is flagged as a duplicate of the empty identifier. -/
theorem duplicate_flags_empty_ids_witness :
    (2 ≤ (([cEmpty, cEmpty]).map Client.ClientID).count ""
      ∧ (validateAll rnd0 jsonOk0 [cEmpty, cEmpty] [wEmpty, wEmpty] [tEmpty, tEmpty]).count
            (dupClientDefect "")
          = (([cEmpty, cEmpty]).map Client.ClientID).count "" - 1
      ∧ ∃ d ∈ validateAll rnd0 jsonOk0 [cEmpty, cEmpty] [wEmpty, wEmpty] [tEmpty, tEmpty],
          d.type = "missing_required_field" ∧ d.entity = "clients" ∧ d.field = "ClientID")
    ∧ (2 ≤ (([wEmpty, wEmpty]).map Worker.WorkerID).count ""
      ∧ (validateAll rnd0 jsonOk0 [cEmpty, cEmpty] [wEmpty, wEmpty] [tEmpty, tEmpty]).count
            (dupWorkerDefect "")
          = (([wEmpty, wEmpty]).map Worker.WorkerID).count "" - 1
      ∧ ∃ d ∈ validateAll rnd0 jsonOk0 [cEmpty, cEmpty] [wEmpty, wEmpty] [tEmpty, tEmpty],
          d.type = "missing_required_field" ∧ d.entity = "workers" ∧ d.field = "WorkerID")
    ∧ (2 ≤ (([tEmpty, tEmpty]).map Task.TaskID).count ""
      ∧ (validateAll rnd0 jsonOk0 [cEmpty, cEmpty] [wEmpty, wEmpty] [tEmpty, tEmpty]).count
            (dupTaskDefect "")
          = (([tEmpty, tEmpty]).map Task.TaskID).count "" - 1
      ∧ ∃ d ∈ validateAll rnd0 jsonOk0 [cEmpty, cEmpty] [wEmpty, wEmpty] [tEmpty, tEmpty],
          d.type = "missing_required_field" ∧ d.entity = "tasks" ∧ d.field = "TaskID") := by
  have h := duplicate_flags_empty_ids rnd0 jsonOk0 [cEmpty, cEmpty] [wEmpty, wEmpty] [tEmpty, tEmpty]
  refine ⟨⟨by decide, ?_⟩, ⟨by decide, ?_⟩, ⟨by decide, ?_⟩⟩
  · obtain ⟨h1, h2⟩ := h.1 (by decide)
    exact ⟨h1, h2⟩
  · obtain ⟨h1, h2⟩ := h.2.1 (by decide)
    exact ⟨h1, h2⟩
  · obtain ⟨h1, h2⟩ := h.2.2 (by decide)
    exact ⟨h1, h2⟩

/- Claims C4, C6, C7: characterizations of single checks as filters of the
full validateAll output. -/

/-- Filtering validateAll splits over the twelve checks. -/
theorem filter_validateAll (rnd : Nat → String) (jsonOk : String → Bool)
    (clients : List Client) (workers : List Worker) (tasks : List Task)
    (p : ValidationError → Bool) :
    (validateAll rnd jsonOk clients workers tasks).filter p
      = (validateMissingRequiredColumns rnd clients workers tasks).1.filter p
        ++ (validateDuplicateIDs clients workers tasks).filter p
        ++ (validateMalformedLists workers).filter p
        ++ (validateOutOfRangeValues clients workers tasks).filter p
        ++ (validateBrokenJSON jsonOk clients).filter p
        ++ (validateUnknownReferences clients tasks).filter p
        ++ (validateOverloadedWorkers workers).filter p
        ++ (validatePhaseSlotSaturation workers tasks).filter p
        ++ (validateSkillCoverageMatrix workers tasks).filter p
        ++ (validateMaxConcurrencyFeasibility workers tasks).filter p := by
  simp [validateAll, List.filter_append, validateCircularCoRunGroups,
    validateConflictingRules]

/-- A list whose members all have another type survives no type filter. -/
theorem filter_type_nil {l : List ValidationError} {t0 : String}
    (h : ∀ d ∈ l, d.type ≠ t0) :
    (l.filter fun d => d.type == t0) = [] := by
  rw [List.filter_eq_nil_iff]
  intro d hd
  simp only [beq_iff_eq]
  exact h d hd

/-- Same, for a conjunctive type-and-entity filter. -/
theorem filter_type_entity_nil {l : List ValidationError} {t0 e0 : String}
    (h : ∀ d ∈ l, d.type ≠ t0) :
    (l.filter fun d => d.type == t0 && d.entity == e0) = [] := by
  rw [List.filter_eq_nil_iff]
  intro d hd
  simp only [Bool.and_eq_true, beq_iff_eq, not_and]
  exact fun ht => absurd ht (h d hd)

/-- Same, filtering on a mismatched entity. -/
theorem filter_entity_nil {l : List ValidationError} {t0 e0 : String}
    (h : ∀ d ∈ l, d.entity ≠ e0) :
    (l.filter fun d => d.type == t0 && d.entity == e0) = [] := by
  rw [List.filter_eq_nil_iff]
  intro d hd
  simp only [Bool.and_eq_true, beq_iff_eq, not_and]
  exact fun _ he => absurd he (h d hd)

/-- C4: the out_of_range defects validateAll emits are exactly the priority
defects of the clients with PriorityLevel outside 1..5, the duration defects
of the tasks with Duration below 1, and the load defects of the workers with
MaxLoadPerPhase below 1, each defect carrying the offending value in its
message; records inside the ranges contribute nothing. -/
theorem validateAll_out_of_range_characterization (rnd : Nat → String)
    (jsonOk : String → Bool) (clients : List Client) (workers : List Worker)
    (tasks : List Task) :
    ((validateAll rnd jsonOk clients workers tasks).filter
          fun d => d.type == "out_of_range" && d.entity == "clients")
        = (clients.filter fun c =>
            decide (c.PriorityLevel < 1 ∨ 5 < c.PriorityLevel)).map mkBadPriority
      ∧ ((validateAll rnd jsonOk clients workers tasks).filter
          fun d => d.type == "out_of_range" && d.entity == "tasks")
        = (tasks.filter fun t => decide (t.Duration < 1)).map mkBadDuration
      ∧ ((validateAll rnd jsonOk clients workers tasks).filter
          fun d => d.type == "out_of_range" && d.entity == "workers")
        = (workers.filter fun w => decide (w.MaxLoadPerPhase < 1)).map mkBadLoad := by
  have hsplit : validateOutOfRangeValues clients workers tasks
      = (clients.flatMap fun c =>
          if c.PriorityLevel < 1 ∨ 5 < c.PriorityLevel then [mkBadPriority c] else [])
        ++ (tasks.flatMap fun t => if t.Duration < 1 then [mkBadDuration t] else [])
        ++ (workers.flatMap fun w =>
            if w.MaxLoadPerPhase < 1 then [mkBadLoad w] else []) := rfl
  have hcl : ∀ d ∈ clients.flatMap fun c =>
      if c.PriorityLevel < 1 ∨ 5 < c.PriorityLevel then [mkBadPriority c] else [],
      d.type = "out_of_range" ∧ d.entity = "clients" := by
    intro d hd
    obtain ⟨c, -, hm⟩ := List.mem_flatMap.mp hd
    obtain ⟨rfl, -⟩ := mem_ite_singleton hm
    exact ⟨rfl, rfl⟩
  have hta : ∀ d ∈ tasks.flatMap fun t => if t.Duration < 1 then [mkBadDuration t] else [],
      d.type = "out_of_range" ∧ d.entity = "tasks" := by
    intro d hd
    obtain ⟨t, -, hm⟩ := List.mem_flatMap.mp hd
    obtain ⟨rfl, -⟩ := mem_ite_singleton hm
    exact ⟨rfl, rfl⟩
  have hwo : ∀ d ∈ workers.flatMap fun w =>
      if w.MaxLoadPerPhase < 1 then [mkBadLoad w] else [],
      d.type = "out_of_range" ∧ d.entity = "workers" := by
    intro d hd
    obtain ⟨w, -, hm⟩ := List.mem_flatMap.mp hd
    obtain ⟨rfl, -⟩ := mem_ite_singleton hm
    exact ⟨rfl, rfl⟩
  refine ⟨?_, ?_, ?_⟩ <;>
    rw [filter_validateAll,
      filter_type_entity_nil
        (l := (validateMissingRequiredColumns rnd clients workers tasks).1) fun d hd => by
        rw [(shape_missing rnd clients workers tasks d hd).1]; decide,
      filter_type_entity_nil (l := validateDuplicateIDs clients workers tasks) fun d hd => by
        rw [(shape_duplicate clients workers tasks d hd).1]; decide,
      filter_type_entity_nil (l := validateMalformedLists workers) fun d hd => by
        rw [(shape_malformed workers d hd).1]; decide,
      filter_type_entity_nil (l := validateBrokenJSON jsonOk clients) fun d hd => by
        rw [(shape_brokenJson jsonOk clients d hd).1]; decide,
      filter_type_entity_nil (l := validateUnknownReferences clients tasks) fun d hd => by
        rw [(shape_unknownRef clients tasks d hd).1]; decide,
      filter_type_entity_nil (l := validateOverloadedWorkers workers) fun d hd => by
        rw [(shape_overloaded workers d hd).1]; decide,
      filter_type_entity_nil (l := validatePhaseSlotSaturation workers tasks) fun d hd => by
        rw [(shape_saturation workers tasks d hd).1]; decide,
      filter_type_entity_nil (l := validateSkillCoverageMatrix workers tasks) fun d hd => by
        rw [(shape_skillCoverage workers tasks d hd).1]; decide,
      filter_type_entity_nil (l := validateMaxConcurrencyFeasibility workers tasks) fun d hd => by
        rw [(shape_maxConc workers tasks d hd).1]; decide,
      hsplit, List.filter_append, List.filter_append]
  · rw [filter_entity_nil (l := tasks.flatMap fun t =>
        if t.Duration < 1 then [mkBadDuration t] else [])
        fun d hd => by rw [(hta d hd).2]; decide,
      filter_entity_nil (l := workers.flatMap fun w =>
        if w.MaxLoadPerPhase < 1 then [mkBadLoad w] else [])
        fun d hd => by rw [(hwo d hd).2]; decide,
      List.filter_eq_self.mpr fun d hd => by
        simp only [Bool.and_eq_true, beq_iff_eq]
        exact ⟨(hcl d hd).1, (hcl d hd).2⟩,
      flatMap_if_eq_filter_map]
    simp
  · rw [filter_entity_nil (l := clients.flatMap fun c =>
        if c.PriorityLevel < 1 ∨ 5 < c.PriorityLevel then [mkBadPriority c] else [])
        fun d hd => by rw [(hcl d hd).2]; decide,
      filter_entity_nil (l := workers.flatMap fun w =>
        if w.MaxLoadPerPhase < 1 then [mkBadLoad w] else [])
        fun d hd => by rw [(hwo d hd).2]; decide,
      List.filter_eq_self.mpr fun d hd => by
        simp only [Bool.and_eq_true, beq_iff_eq]
        exact ⟨(hta d hd).1, (hta d hd).2⟩,
      flatMap_if_eq_filter_map]
    simp
  · rw [filter_entity_nil (l := clients.flatMap fun c =>
        if c.PriorityLevel < 1 ∨ 5 < c.PriorityLevel then [mkBadPriority c] else [])
        fun d hd => by rw [(hcl d hd).2]; decide,
      filter_entity_nil (l := tasks.flatMap fun t =>
        if t.Duration < 1 then [mkBadDuration t] else [])
        fun d hd => by rw [(hta d hd).2]; decide,
      List.filter_eq_self.mpr fun d hd => by
        simp only [Bool.and_eq_true, beq_iff_eq]
        exact ⟨(hwo d hd).1, (hwo d hd).2⟩,
      flatMap_if_eq_filter_map]
    simp

/-- C6 (amended): the unknown_reference defects validateAll emits are exactly
one defect per occurrence of a requested task identifier that is absent from
the TaskIDs, per client, in traversal order; identifiers present among the
TaskIDs contribute nothing. -/
theorem validateAll_unknown_reference_characterization (rnd : Nat → String)
    (jsonOk : String → Bool) (clients : List Client) (workers : List Worker)
    (tasks : List Task) :
    ((validateAll rnd jsonOk clients workers tasks).filter
        fun d => d.type == "unknown_reference")
      = clients.flatMap fun c =>
          (c.RequestedTaskIDs.filter fun tid =>
            decide (tid ∉ tasks.map Task.TaskID)).map (mkUnknownRef c.ClientID) := by
  rw [filter_validateAll,
    filter_type_nil
      (l := (validateMissingRequiredColumns rnd clients workers tasks).1) fun d hd => by
      rw [(shape_missing rnd clients workers tasks d hd).1]; decide,
    filter_type_nil (l := validateDuplicateIDs clients workers tasks) fun d hd => by
      rw [(shape_duplicate clients workers tasks d hd).1]; decide,
    filter_type_nil (l := validateMalformedLists workers) fun d hd => by
      rw [(shape_malformed workers d hd).1]; decide,
    filter_type_nil (l := validateOutOfRangeValues clients workers tasks) fun d hd => by
      rw [(shape_outOfRange clients workers tasks d hd).1]; decide,
    filter_type_nil (l := validateBrokenJSON jsonOk clients) fun d hd => by
      rw [(shape_brokenJson jsonOk clients d hd).1]; decide,
    filter_type_nil (l := validateOverloadedWorkers workers) fun d hd => by
      rw [(shape_overloaded workers d hd).1]; decide,
    filter_type_nil (l := validatePhaseSlotSaturation workers tasks) fun d hd => by
      rw [(shape_saturation workers tasks d hd).1]; decide,
    filter_type_nil (l := validateSkillCoverageMatrix workers tasks) fun d hd => by
      rw [(shape_skillCoverage workers tasks d hd).1]; decide,
    filter_type_nil (l := validateMaxConcurrencyFeasibility workers tasks) fun d hd => by
      rw [(shape_maxConc workers tasks d hd).1]; decide,
    List.filter_eq_self.mpr fun d hd => by
      simp only [beq_iff_eq]
      exact (shape_unknownRef clients tasks d hd).1]
  simp only [List.nil_append, List.append_nil]
  simp only [validateUnknownReferences]
  congr 1
  funext c
  rw [flatMap_ifneg_eq_filter_map]

/-- Client listing the same absent task identifier twice. -/
def cDupRef : Client :=
  { ClientID := "C1", ClientName := "Acme", PriorityLevel := 3,
    RequestedTaskIDs := ["T9", "T9"], GroupTag := "", AttributesJSON := "" }

/-- C6 counterexample: a client whose requested list contains the absent
identifier T9 twice receives two unknown_reference defects for T9, not
exactly one per absent identifier as the claim states. -/
theorem unknown_reference_per_occurrence_cex :
    (validateAll rnd0 jsonOk0 [cDupRef] [] []).count (mkUnknownRef "C1" "T9") = 2
      ∧ ¬ (validateAll rnd0 jsonOk0 [cDupRef] [] []).count (mkUnknownRef "C1" "T9") = 1 := by
  decide

/-- C7: the max_concurrency defects validateAll emits are exactly one warning
per task whose MaxConcurrent exceeds its qualified-worker count (the number
of workers whose skill list contains every required skill), each warning
citing that count; tasks with enough qualified workers contribute nothing. -/
theorem validateAll_max_concurrency_characterization (rnd : Nat → String)
    (jsonOk : String → Bool) (clients : List Client) (workers : List Worker)
    (tasks : List Task) :
    ((validateAll rnd jsonOk clients workers tasks).filter
        fun d => d.type == "max_concurrency")
      = (tasks.filter fun t =>
          decide ((qualifiedCount workers t : Int) < t.MaxConcurrent)).map
          fun t => mkMaxConc t.TaskID t.MaxConcurrent (qualifiedCount workers t) := by
  rw [filter_validateAll,
    filter_type_nil
      (l := (validateMissingRequiredColumns rnd clients workers tasks).1) fun d hd => by
      rw [(shape_missing rnd clients workers tasks d hd).1]; decide,
    filter_type_nil (l := validateDuplicateIDs clients workers tasks) fun d hd => by
      rw [(shape_duplicate clients workers tasks d hd).1]; decide,
    filter_type_nil (l := validateMalformedLists workers) fun d hd => by
      rw [(shape_malformed workers d hd).1]; decide,
    filter_type_nil (l := validateOutOfRangeValues clients workers tasks) fun d hd => by
      rw [(shape_outOfRange clients workers tasks d hd).1]; decide,
    filter_type_nil (l := validateBrokenJSON jsonOk clients) fun d hd => by
      rw [(shape_brokenJson jsonOk clients d hd).1]; decide,
    filter_type_nil (l := validateUnknownReferences clients tasks) fun d hd => by
      rw [(shape_unknownRef clients tasks d hd).1]; decide,
    filter_type_nil (l := validateOverloadedWorkers workers) fun d hd => by
      rw [(shape_overloaded workers d hd).1]; decide,
    filter_type_nil (l := validatePhaseSlotSaturation workers tasks) fun d hd => by
      rw [(shape_saturation workers tasks d hd).1]; decide,
    filter_type_nil (l := validateSkillCoverageMatrix workers tasks) fun d hd => by
      rw [(shape_skillCoverage workers tasks d hd).1]; decide,
    List.filter_eq_self.mpr fun d hd => by
      simp only [beq_iff_eq]
      exact (shape_maxConc workers tasks d hd).1]
  simp only [List.nil_append, List.append_nil]
  simp only [validateMaxConcurrencyFeasibility]
  rw [flatMap_if_eq_filter_map]

/- Claim C5: phase-slot saturation. -/

theorem insertAsc_perm (x : Int) : ∀ l : List Int, (insertAsc x l).Perm (x :: l) := by
  intro l
  induction l with
  | nil => simp [insertAsc]
  | cons y ys ih =>
    by_cases h : x ≤ y
    · simp [insertAsc, h]
    · simp only [insertAsc, if_neg h]
      exact (ih.cons y).trans (List.Perm.swap x y ys)

theorem sortAsc_perm : ∀ l : List Int, (sortAsc l).Perm l := by
  intro l
  induction l with
  | nil => simp [sortAsc]
  | cons a as ih =>
    have : sortAsc (a :: as) = insertAsc a (sortAsc as) := rfl
    rw [this]
    exact (insertAsc_perm a (sortAsc as)).trans (ih.cons a)

theorem lookup_recAdd (m : List (Int × Int)) (k v x : Int) :
    lookupRec (recAdd m k v) x
      = if k = x then lookupRec m x + v else lookupRec m x := by
  induction m with
  | nil =>
    by_cases h : k = x <;> simp [recAdd, lookupRec, h]
  | cons pr rest ih =>
    obtain ⟨k0, v0⟩ := pr
    by_cases h0 : k0 = k
    · subst h0
      by_cases hx : k0 = x <;> simp [recAdd, lookupRec, hx]
    · by_cases hx : k0 = x
      · subst hx
        have hkx : ¬ k = k0 := fun hc => h0 hc.symm
        simp [recAdd, lookupRec, h0, hkx]
      · simp [recAdd, lookupRec, h0, hx, ih]

theorem keys_recAdd (m : List (Int × Int)) (k v : Int) :
    (recAdd m k v).map Prod.fst
      = if k ∈ m.map Prod.fst then m.map Prod.fst
        else m.map Prod.fst ++ [k] := by
  induction m with
  | nil => simp [recAdd]
  | cons pr rest ih =>
    obtain ⟨k0, v0⟩ := pr
    by_cases h0 : k0 = k
    · subst h0
      simp [recAdd]
    · have hne : ¬ k = k0 := fun hc => h0 hc.symm
      by_cases hmem : k ∈ rest.map Prod.fst <;>
        simp [recAdd, h0, hne, hmem, ih, List.mem_cons]

theorem mem_keys_recAdd (m : List (Int × Int)) (k v x : Int) :
    x ∈ (recAdd m k v).map Prod.fst ↔ x = k ∨ x ∈ m.map Prod.fst := by
  rw [keys_recAdd]
  by_cases hmem : k ∈ m.map Prod.fst
  · rw [if_pos hmem]
    constructor
    · exact Or.inr
    · rintro (rfl | h)
      · exact hmem
      · exact h
  · rw [if_neg hmem]
    simp [List.mem_append, or_comm]

theorem nodup_keys_recAdd (m : List (Int × Int)) (k v : Int)
    (h : (m.map Prod.fst).Nodup) : ((recAdd m k v).map Prod.fst).Nodup := by
  rw [keys_recAdd]
  by_cases hmem : k ∈ m.map Prod.fst
  · rw [if_pos hmem]
    exact h
  · rw [if_neg hmem]
    refine h.append (List.nodup_singleton k) ?_
    intro a ha hb
    rw [List.mem_singleton] at hb
    subst hb
    exact hmem ha

/-- Running total a record holds at key x after feeding it increments. -/
def sumAt (prs : List (Int × Int)) (x : Int) : Int :=
  (prs.map fun pr => if pr.1 = x then pr.2 else 0).sum

theorem sumAt_append (a b : List (Int × Int)) (x : Int) :
    sumAt (a ++ b) x = sumAt a x + sumAt b x := by
  simp [sumAt, List.sum_append]

theorem lookup_foldRec :
    ∀ (prs : List (Int × Int)) (m0 : List (Int × Int)) (x : Int),
      lookupRec (prs.foldl (fun m pr => recAdd m pr.1 pr.2) m0) x
        = lookupRec m0 x + sumAt prs x := by
  intro prs
  induction prs with
  | nil =>
    intro m0 x
    simp [sumAt]
  | cons pr rest ih =>
    intro m0 x
    simp only [List.foldl_cons, ih, lookup_recAdd, sumAt, List.map_cons, List.sum_cons]
    by_cases h : pr.1 = x <;> simp [h] <;> omega

theorem lookup_buildRec (prs : List (Int × Int)) (x : Int) :
    lookupRec (buildRec prs) x = sumAt prs x := by
  rw [buildRec, lookup_foldRec prs [] x]
  simp [lookupRec]

theorem nodup_keys_foldRec :
    ∀ (prs : List (Int × Int)) (m0 : List (Int × Int)),
      (m0.map Prod.fst).Nodup →
        ((prs.foldl (fun m pr => recAdd m pr.1 pr.2) m0).map Prod.fst).Nodup := by
  intro prs
  induction prs with
  | nil =>
    intro m0 h
    exact h
  | cons pr rest ih =>
    intro m0 h
    exact ih _ (nodup_keys_recAdd m0 pr.1 pr.2 h)

theorem nodup_keys_buildRec (prs : List (Int × Int)) :
    ((buildRec prs).map Prod.fst).Nodup :=
  nodup_keys_foldRec prs [] (by simp)

theorem mem_keys_foldRec :
    ∀ (prs : List (Int × Int)) (m0 : List (Int × Int)) (x : Int),
      x ∈ (prs.foldl (fun m pr => recAdd m pr.1 pr.2) m0).map Prod.fst
        ↔ x ∈ m0.map Prod.fst ∨ x ∈ prs.map Prod.fst := by
  intro prs
  induction prs with
  | nil =>
    intro m0 x
    simp
  | cons pr rest ih =>
    intro m0 x
    simp only [List.foldl_cons, ih, mem_keys_recAdd, List.map_cons, List.mem_cons]
    tauto

theorem mem_keys_buildRec (prs : List (Int × Int)) (x : Int) :
    x ∈ (buildRec prs).map Prod.fst ↔ x ∈ prs.map Prod.fst := by
  have := mem_keys_foldRec prs [] x
  simpa [buildRec] using this

theorem mem_jsKeys (m : List (Int × Int)) (x : Int) :
    x ∈ jsKeys m ↔ x ∈ m.map Prod.fst := by
  simp only [jsKeys, List.mem_append, (sortAsc_perm _).mem_iff, List.mem_filter,
    decide_eq_true_eq]
  constructor
  · rintro (⟨h, -⟩ | ⟨h, -⟩) <;> exact h
  · intro h
    by_cases h0 : 0 ≤ x
    · exact Or.inl ⟨h, h0⟩
    · exact Or.inr ⟨h, by omega⟩

theorem nodup_jsKeys (m : List (Int × Int)) (h : (m.map Prod.fst).Nodup) :
    (jsKeys m).Nodup := by
  refine List.Nodup.append ?_ (h.filter _) ?_
  · exact ((sortAsc_perm _).nodup_iff).mpr (h.filter _)
  · intro a ha hb
    rw [(sortAsc_perm _).mem_iff, List.mem_filter, decide_eq_true_eq] at ha
    rw [List.mem_filter, decide_eq_true_eq] at hb
    omega

theorem sumAt_flatMap {α : Type} (l : List α) (g : α → List (Int × Int)) (x : Int) :
    sumAt (l.flatMap g) x = (l.map fun a => sumAt (g a) x).sum := by
  induction l with
  | nil => simp [sumAt]
  | cons a as ih => simp [List.flatMap_cons, sumAt_append, ih]

theorem sumAt_pairs_of_phases (phases : List Int) (v x : Int) :
    sumAt (phases.map fun p => (p, v)) x = (phases.count x : Int) * v := by
  induction phases with
  | nil => simp [sumAt]
  | cons p rest ih =>
    simp only [List.map_cons, sumAt, List.sum_cons, List.count_cons, beq_iff_eq]
    have ih2 : ((rest.map fun p => (p, v)).map fun pr => if pr.1 = x then pr.2 else 0).sum
        = (rest.count x : Int) * v := ih
    by_cases h : p = x
    · simp only [h, if_pos rfl, ih2]
      push_cast
      ring
    · simp only [if_neg h, ih2]
      have : ¬ (x = p) := fun hc => h hc.symm
      simp [this]

theorem lookup_demand (tasks : List Task) (p : Int) :
    lookupRec (buildRec (demandPairs tasks)) p = phaseDemandOf tasks p := by
  rw [lookup_buildRec, demandPairs, sumAt_flatMap]
  simp only [phaseDemandOf, sumAt_pairs_of_phases]

theorem lookup_capacity (workers : List Worker) (p : Int) :
    lookupRec (buildRec (capacityPairs workers)) p = phaseCapacityOf workers p := by
  rw [lookup_buildRec, capacityPairs, sumAt_flatMap]
  simp only [phaseCapacityOf, sumAt_pairs_of_phases]

theorem keys_demandPairs (tasks : List Task) :
    (demandPairs tasks).map Prod.fst = tasks.flatMap Task.PreferredPhases := by
  rw [demandPairs, List.map_flatMap]
  congr 1
  funext t
  rw [List.map_map]
  have hcomp : (Prod.fst ∘ fun p : Int => (p, t.Duration)) = fun p : Int => p := rfl
  rw [hcomp, List.map_id']

/-- A phase no task prefers accumulates zero demand. -/
theorem phaseDemandOf_eq_zero_of_not_mem (tasks : List Task) (p : Int)
    (h : p ∉ tasks.flatMap Task.PreferredPhases) : phaseDemandOf tasks p = 0 := by
  apply List.sum_eq_zero
  intro x hx
  obtain ⟨t, ht, rfl⟩ := List.mem_map.mp hx
  have : p ∉ t.PreferredPhases := fun hc => h (List.mem_flatMap.mpr ⟨t, ht, hc⟩)
  rw [List.count_eq_zero.mpr this]
  simp

theorem satDefect_phase_inj {p p' d d' c c' : Int}
    (h : satDefect p d c = satDefect p' d' c') : p = p' := by
  have hid := congrArg ValidationError.id h
  simp only [satDefect] at hid
  exact intDec_inj (str_append_left_cancel hid)

/-- Exactly one copy of v arises from a flatMap over a nodup list when one
element produces it once and every other element never does. -/
theorem count_flatMap_eq_one {f : Int → List ValidationError}
    {v : ValidationError} {p : Int} :
    ∀ l : List Int, l.Nodup → p ∈ l → (f p).count v = 1 →
      (∀ q ∈ l, q ≠ p → (f q).count v = 0) → (l.flatMap f).count v = 1 := by
  intro l
  induction l with
  | nil =>
    intro _ hp _ _
    simp at hp
  | cons a as ih =>
    intro hnd hp hself hother
    simp only [List.flatMap_cons, List.count_append]
    rcases List.mem_cons.mp hp with rfl | hmem
    · have hzero : (as.flatMap f).count v = 0 := by
        rw [count_flatMap]
        apply List.sum_eq_zero
        intro x hx
        obtain ⟨q, hq, rfl⟩ := List.mem_map.mp hx
        have hq_ne : q ≠ p := fun hc => (List.nodup_cons.mp hnd).1 (hc ▸ hq)
        exact hother q (List.mem_cons_of_mem p hq) hq_ne
      rw [hself, hzero]
    · have ha : (f a).count v = 0 :=
        hother a (List.mem_cons_self a as)
          (fun hc => (List.nodup_cons.mp hnd).1 (hc ▸ hmem))
      rw [ha, ih (List.nodup_cons.mp hnd).2 hmem hself
        (fun q hq hne => hother q (List.mem_cons_of_mem a hq) hne)]

/-- Only check 9 contributes copies of a phase_saturation defect. -/
theorem count_sat_in_validateAll (rnd : Nat → String) (jsonOk : String → Bool)
    (clients : List Client) (workers : List Worker) (tasks : List Task)
    (v : ValidationError) (hv : v.type = "phase_saturation") :
    (validateAll rnd jsonOk clients workers tasks).count v
      = (validatePhaseSlotSaturation workers tasks).count v := by
  rw [count_validateAll]
  have z1 : (validateMissingRequiredColumns rnd clients workers tasks).1.count v = 0 :=
    count_eq_zero_of_type_ne fun d hd => by
      rw [(shape_missing rnd clients workers tasks d hd).1, hv]; decide
  have z2 : (validateDuplicateIDs clients workers tasks).count v = 0 :=
    count_eq_zero_of_type_ne fun d hd => by
      rw [(shape_duplicate clients workers tasks d hd).1, hv]; decide
  have z3 : (validateMalformedLists workers).count v = 0 :=
    count_eq_zero_of_type_ne fun d hd => by
      rw [(shape_malformed workers d hd).1, hv]; decide
  have z4 : (validateOutOfRangeValues clients workers tasks).count v = 0 :=
    count_eq_zero_of_type_ne fun d hd => by
      rw [(shape_outOfRange clients workers tasks d hd).1, hv]; decide
  have z5 : (validateBrokenJSON jsonOk clients).count v = 0 :=
    count_eq_zero_of_type_ne fun d hd => by
      rw [(shape_brokenJson jsonOk clients d hd).1, hv]; decide
  have z6 : (validateUnknownReferences clients tasks).count v = 0 :=
    count_eq_zero_of_type_ne fun d hd => by
      rw [(shape_unknownRef clients tasks d hd).1, hv]; decide
  have z8 : (validateOverloadedWorkers workers).count v = 0 :=
    count_eq_zero_of_type_ne fun d hd => by
      rw [(shape_overloaded workers d hd).1, hv]; decide
  have z10 : (validateSkillCoverageMatrix workers tasks).count v = 0 :=
    count_eq_zero_of_type_ne fun d hd => by
      rw [(shape_skillCoverage workers tasks d hd).1, hv]; decide
  have z11 : (validateMaxConcurrencyFeasibility workers tasks).count v = 0 :=
    count_eq_zero_of_type_ne fun d hd => by
      rw [(shape_maxConc workers tasks d hd).1, hv]; decide
  omega

/-- C5 (amended): for every phase with positive accumulated demand strictly
exceeding accumulated capacity (each occurrence of a phase in a list
contributing once), validateAll contains exactly one phase_saturation defect
naming that phase, its demand and its capacity; and every phase_saturation
defect names a phase some task prefers, so unpreferred phases are silent. -/
theorem validateAll_phase_saturation_characterization (rnd : Nat → String)
    (jsonOk : String → Bool) (clients : List Client) (workers : List Worker)
    (tasks : List Task) :
    (∀ p : Int, 0 < phaseDemandOf tasks p →
      phaseCapacityOf workers p < phaseDemandOf tasks p →
        (validateAll rnd jsonOk clients workers tasks).count
          (satDefect p (phaseDemandOf tasks p) (phaseCapacityOf workers p)) = 1)
    ∧ (∀ d ∈ validateAll rnd jsonOk clients workers tasks,
        d.type = "phase_saturation" →
          ∃ p, p ∈ tasks.flatMap Task.PreferredPhases
            ∧ d = satDefect p (phaseDemandOf tasks p) (phaseCapacityOf workers p)
            ∧ phaseCapacityOf workers p < phaseDemandOf tasks p) := by
  have hbody : validatePhaseSlotSaturation workers tasks
      = (jsKeys (buildRec (demandPairs tasks))).flatMap fun phase =>
          if phaseCapacityOf workers phase < phaseDemandOf tasks phase
          then [satDefect phase (phaseDemandOf tasks phase) (phaseCapacityOf workers phase)]
          else [] := by
    simp only [validatePhaseSlotSaturation, lookup_demand, lookup_capacity]
  constructor
  · intro p hdem hlt
    rw [count_sat_in_validateAll rnd jsonOk clients workers tasks _ rfl, hbody]
    have hmem : p ∈ jsKeys (buildRec (demandPairs tasks)) := by
      rw [mem_jsKeys, mem_keys_buildRec, keys_demandPairs]
      by_contra hc
      rw [phaseDemandOf_eq_zero_of_not_mem tasks p hc] at hdem
      omega
    refine count_flatMap_eq_one _
      (nodup_jsKeys _ (nodup_keys_buildRec (demandPairs tasks))) hmem ?_ ?_
    · rw [if_pos hlt]
      simp
    · intro q hq hne
      by_cases hc : phaseCapacityOf workers q < phaseDemandOf tasks q
      · rw [if_pos hc]
        refine List.count_eq_zero.mpr fun hm => ?_
        rw [List.mem_singleton] at hm
        exact hne (satDefect_phase_inj hm).symm
      · rw [if_neg hc]
        simp
  · intro d hd htype
    simp only [validateAll, List.mem_append, validateCircularCoRunGroups,
      validateConflictingRules, List.not_mem_nil, or_false, false_or] at hd
    rcases hd with ((((((((hd | hd) | hd) | hd) | hd) | hd) | hd) | hd) | hd) | hd
    · exact absurd ((shape_missing rnd clients workers tasks d hd).1.symm.trans htype)
        (by decide)
    · exact absurd ((shape_duplicate clients workers tasks d hd).1.symm.trans htype)
        (by decide)
    · exact absurd ((shape_malformed workers d hd).1.symm.trans htype) (by decide)
    · exact absurd ((shape_outOfRange clients workers tasks d hd).1.symm.trans htype)
        (by decide)
    · exact absurd ((shape_brokenJson jsonOk clients d hd).1.symm.trans htype) (by decide)
    · exact absurd ((shape_unknownRef clients tasks d hd).1.symm.trans htype) (by decide)
    · exact absurd ((shape_overloaded workers d hd).1.symm.trans htype) (by decide)
    · rw [hbody] at hd
      obtain ⟨q, hq, hm⟩ := List.mem_flatMap.mp hd
      obtain ⟨rfl, hcond⟩ := mem_ite_singleton hm
      refine ⟨q, ?_, rfl, hcond⟩
      rw [mem_jsKeys, mem_keys_buildRec, keys_demandPairs] at hq
      exact hq
    · exact absurd ((shape_skillCoverage workers tasks d hd).1.symm.trans htype)
        (by decide)
    · exact absurd ((shape_maxConc workers tasks d hd).1.symm.trans htype) (by decide)

/-- Worker available in phase 1 with max load 2 (the scenario of the claim). -/
def wSat : Worker :=
  { WorkerID := "W1", WorkerName := "Alice", Skills := [], AvailableSlots := [1],
    MaxLoadPerPhase := 2, WorkerGroup := "", QualificationLevel := 1 }

/-- First task preferring phase 1 with duration 2. -/
def tSatA : Task :=
  { TaskID := "T1", TaskName := "A", Category := "", Duration := 2,
    RequiredSkills := [], PreferredPhases := [1], MaxConcurrent := 0 }

/-- Second task preferring phase 1 with duration 2. -/
def tSatB : Task :=
  { TaskID := "T2", TaskName := "B", Category := "", Duration := 2,
    RequiredSkills := [], PreferredPhases := [1], MaxConcurrent := 0 }

/-- C5 witness: the scenario of the claim, demand 4 against capacity 2 in
phase 1, yields exactly one saturation defect carrying those numbers. -/
theorem validateAll_phase_saturation_characterization_witness :
    (0 < phaseDemandOf [tSatA, tSatB] 1
        ∧ phaseCapacityOf [wSat] 1 < phaseDemandOf [tSatA, tSatB] 1)
      ∧ phaseDemandOf [tSatA, tSatB] 1 = 4
      ∧ phaseCapacityOf [wSat] 1 = 2
      ∧ (validateAll rnd0 jsonOk0 [] [wSat] [tSatA, tSatB]).count
          (satDefect 1 (phaseDemandOf [tSatA, tSatB] 1) (phaseCapacityOf [wSat] 1)) = 1 :=
  ⟨⟨by decide, by decide⟩, by decide, by decide,
    (validateAll_phase_saturation_characterization rnd0 jsonOk0 [] [wSat]
      [tSatA, tSatB]).1 1 (by decide) (by decide)⟩

/-- Stated from the claim text: demand of a phase as the sum of Duration over
all Tasks whose PreferredPhases contains the phase, counting each task once
however often the phase occurs in its list. -/
def claimPhaseDemand (tasks : List Task) (p : Int) : Int :=
  ((tasks.filter fun t => p ∈ t.PreferredPhases).map Task.Duration).sum

/-- Stated from the claim text: capacity of a phase as the sum of
MaxLoadPerPhase over all Workers whose AvailableSlots contains the phase. -/
def claimPhaseCapacity (workers : List Worker) (p : Int) : Int :=
  ((workers.filter fun w => p ∈ w.AvailableSlots).map Worker.MaxLoadPerPhase).sum

/-- Worker available in phase 1 with max load 3. -/
def wCap3 : Worker :=
  { WorkerID := "W1", WorkerName := "Alice", Skills := [], AvailableSlots := [1],
    MaxLoadPerPhase := 3, WorkerGroup := "", QualificationLevel := 1 }

/-- Task listing phase 1 twice in its preferred phases, duration 2. -/
def tDupPhase : Task :=
  { TaskID := "T1", TaskName := "A", Category := "", Duration := 2,
    RequiredSkills := [], PreferredPhases := [1, 1], MaxConcurrent := 0 }

/-- C5 counterexample: with a task listing phase 1 twice, the demand of the
claim formula is 2 against capacity 3, so the claim predicts no saturation
defect, yet the engine accumulates Duration per occurrence and emits one
defect naming demand 4; the defect the claim formula would name is absent. -/
theorem phase_saturation_multiplicity_cex :
    claimPhaseDemand [tDupPhase] 1 = 2
      ∧ claimPhaseCapacity [wCap3] 1 = 3
      ∧ ((validateAll rnd0 jsonOk0 [] [wCap3] [tDupPhase]).filter
          fun d => d.type == "phase_saturation") = [satDefect 1 4 3]
      ∧ satDefect 1 (claimPhaseDemand [tDupPhase] 1) (claimPhaseCapacity [wCap3] 1)
          ∉ validateAll rnd0 jsonOk0 [] [wCap3] [tDupPhase] := by
  decide

/- Claim C1: idempotence of validateAll across two invocations. -/

/-- Erase the id of a missing_required_field defect; these ids interpolate
Math.random() and are the only randomized field of the engine output. -/
def eraseRandomId (d : ValidationError) : ValidationError :=
  if d.type = "missing_required_field" then
    { id := "", type := d.type, entity := d.entity, entityId := d.entityId,
      field := d.field, message := d.message, severity := d.severity }
  else d

theorem erase_missingClient (rndA rndB : Nat → String) :
    ∀ (l : List Client) (kA kB : Nat),
      ((missingClientErrors rndA l kA).1).map eraseRandomId
        = ((missingClientErrors rndB l kB).1).map eraseRandomId := by
  intro l
  induction l with
  | nil =>
    intro kA kB
    simp [missingClientErrors]
  | cons c rest ih =>
    intro kA kB
    by_cases h1 : c.ClientID = "" <;> by_cases h2 : c.ClientName = "" <;>
      simp only [missingClientErrors, h1, h2, if_true, if_false, ite_true, ite_false,
        List.nil_append, List.cons_append, List.singleton_append, List.map_append,
        List.map_cons, List.map_nil, eraseRandomId, mkMissingClientId,
        mkMissingClientName]
    · rw [ih (kA + 1 + 1) (kB + 1 + 1)]
    · rw [ih (kA + 1) (kB + 1)]
    · rw [ih (kA + 1) (kB + 1)]
    · exact ih kA kB

theorem erase_missingWorker (rndA rndB : Nat → String) :
    ∀ (l : List Worker) (kA kB : Nat),
      ((missingWorkerErrors rndA l kA).1).map eraseRandomId
        = ((missingWorkerErrors rndB l kB).1).map eraseRandomId := by
  intro l
  induction l with
  | nil =>
    intro kA kB
    simp [missingWorkerErrors]
  | cons w rest ih =>
    intro kA kB
    by_cases h1 : w.WorkerID = "" <;> by_cases h2 : w.WorkerName = "" <;>
      simp only [missingWorkerErrors, h1, h2, if_true, if_false, ite_true, ite_false,
        List.nil_append, List.cons_append, List.singleton_append, List.map_append,
        List.map_cons, List.map_nil, eraseRandomId, mkMissingWorkerId,
        mkMissingWorkerName]
    · rw [ih (kA + 1 + 1) (kB + 1 + 1)]
    · rw [ih (kA + 1) (kB + 1)]
    · rw [ih (kA + 1) (kB + 1)]
    · exact ih kA kB

theorem erase_missingTask (rndA rndB : Nat → String) :
    ∀ (l : List Task) (kA kB : Nat),
      ((missingTaskErrors rndA l kA).1).map eraseRandomId
        = ((missingTaskErrors rndB l kB).1).map eraseRandomId := by
  intro l
  induction l with
  | nil =>
    intro kA kB
    simp [missingTaskErrors]
  | cons t rest ih =>
    intro kA kB
    by_cases h1 : t.TaskID = "" <;> by_cases h2 : t.TaskName = "" <;>
      simp only [missingTaskErrors, h1, h2, if_true, if_false, ite_true, ite_false,
        List.nil_append, List.cons_append, List.singleton_append, List.map_append,
        List.map_cons, List.map_nil, eraseRandomId, mkMissingTaskId,
        mkMissingTaskName]
    · rw [ih (kA + 1 + 1) (kB + 1 + 1)]
    · rw [ih (kA + 1) (kB + 1)]
    · rw [ih (kA + 1) (kB + 1)]
    · exact ih kA kB

/-- C1 (amended): two invocations of validateAll on the same inputs agree in
every field of every defect except the id of missing_required_field defects,
which interpolates Math.random(); erasing only those ids, the two outputs
are identical sequences whatever values the two random streams supply. -/
theorem validateAll_deterministic_mod_random_ids (rndA rndB : Nat → String)
    (jsonOk : String → Bool) (clients : List Client) (workers : List Worker)
    (tasks : List Task) :
    (validateAll rndA jsonOk clients workers tasks).map eraseRandomId
      = (validateAll rndB jsonOk clients workers tasks).map eraseRandomId := by
  have h1 : ((validateMissingRequiredColumns rndA clients workers tasks).1).map eraseRandomId
      = ((validateMissingRequiredColumns rndB clients workers tasks).1).map eraseRandomId := by
    simp only [validateMissingRequiredColumns, List.map_append]
    rw [erase_missingClient rndA rndB clients 0 0,
      erase_missingWorker rndA rndB workers _ _, erase_missingTask rndA rndB tasks _ _]
  simp only [validateAll, List.map_append]
  rw [h1]

/-- Client with a missing identifier, triggering a randomized defect id. -/
def cNoId : Client :=
  { ClientID := "", ClientName := "X", PriorityLevel := 3,
    RequestedTaskIDs := [], GroupTag := "", AttributesJSON := "" }

/-- C1 counterexample: on a client with a missing ClientID, two invocations
of validateAll, observing two different Math.random() streams, return Defect
sequences that differ (in the id field of the missing_required_field
defect), refuting idempotence of the full Defect value including id. -/
theorem validateAll_random_ids_cex :
    validateAll rnd0 jsonOk0 [cNoId] [] [] ≠ validateAll rnd1 jsonOk0 [cNoId] [] [] := by
  decide

/- Claim C8: the engine never mutates its inputs. -/

/-- The three collections held by a ValidationEngine instance after setData. -/
structure EngineState where
  clients : List Client
  workers : List Worker
  tasks : List Task
deriving DecidableEq, Repr

/-- setData: store the three collections on the engine. -/
def setData (clients : List Client) (workers : List Worker) (tasks : List Task) :
    EngineState :=
  { clients := clients, workers := workers, tasks := tasks }

/-- validateAll as a state transformer on the engine: each check receives the
stored collections and hands the state on; no source check assigns to
this.clients, this.workers or this.tasks, or to any record or element, so
each step returns its input state. -/
def validateAllState (rnd : Nat → String) (jsonOk : String → Bool)
    (s : EngineState) : List ValidationError × EngineState :=
  let r1 := ((validateMissingRequiredColumns rnd s.clients s.workers s.tasks).1, s)
  let r2 := (validateDuplicateIDs r1.2.clients r1.2.workers r1.2.tasks, r1.2)
  let r3 := (validateMalformedLists r2.2.workers, r2.2)
  let r4 := (validateOutOfRangeValues r3.2.clients r3.2.workers r3.2.tasks, r3.2)
  let r5 := (validateBrokenJSON jsonOk r4.2.clients, r4.2)
  let r6 := (validateUnknownReferences r5.2.clients r5.2.tasks, r5.2)
  let r7 := (validateCircularCoRunGroups, r6.2)
  let r8 := (validateOverloadedWorkers r7.2.workers, r7.2)
  let r9 := (validatePhaseSlotSaturation r8.2.workers r8.2.tasks, r8.2)
  let r10 := (validateSkillCoverageMatrix r9.2.workers r9.2.tasks, r9.2)
  let r11 := (validateMaxConcurrencyFeasibility r10.2.workers r10.2.tasks, r10.2)
  let r12 := (validateConflictingRules, r11.2)
  (r1.1 ++ r2.1 ++ r3.1 ++ r4.1 ++ r5.1 ++ r6.1 ++ r7.1 ++ r8.1 ++ r9.1 ++ r10.1
    ++ r11.1 ++ r12.1, r12.2)

/-- C8: one validation pass leaves the three collections, and so every record
in them, exactly as they were, while returning the usual defect list. -/
theorem validateAll_state_preserved (rnd : Nat → String) (jsonOk : String → Bool)
    (s : EngineState) :
    (validateAllState rnd jsonOk s).2 = s
      ∧ (validateAllState rnd jsonOk s).1
        = validateAll rnd jsonOk s.clients s.workers s.tasks :=
  ⟨rfl, rfl⟩

/- Claim C2: behaviour on records violating the declared field types.  The
TypeScript interfaces promise RequestedTaskIDs : string[] and
AvailableSlots : number[], but nothing enforces them at runtime, and the
claim quantifies over records whose fields are missing or malformed.  The
Dyn namespace re-embeds the engine with those two fields as runtime values
(absent, a non-array, or an array), with every property access given its
JavaScript semantics: reading .length or calling .forEach on undefined
throws a TypeError, calling .forEach on a number throws a TypeError, while
comparisons against undefined are merely false.  A thrown TypeError
propagates out of validateAll, modelled by Except. -/

namespace Dyn

/-- Runtime value found where the Worker interface declares number[]. -/
inductive SlotsVal where
  | undef
  | num (n : Int)
  | arr (xs : List Int)
deriving DecidableEq, Repr

/-- Runtime value found where the Client interface declares string[]. -/
inductive ReqVal where
  | undef
  | num (n : Int)
  | arr (xs : List String)
deriving DecidableEq, Repr

/-- Client record as it may exist at runtime. -/
structure ClientD where
  ClientID : String
  ClientName : String
  PriorityLevel : Int
  RequestedTaskIDs : ReqVal
  GroupTag : String
  AttributesJSON : String
deriving DecidableEq, Repr

/-- Worker record as it may exist at runtime. -/
structure WorkerD where
  WorkerID : String
  WorkerName : String
  Skills : List String
  AvailableSlots : SlotsVal
  MaxLoadPerPhase : Int
  WorkerGroup : String
  QualificationLevel : Int
deriving DecidableEq, Repr

/-- Calling forEach on the runtime value of RequestedTaskIDs. -/
def ReqVal.jsForEach : ReqVal → Except String (List String)
  | ReqVal.undef =>
      Except.error "TypeError: Cannot read properties of undefined (reading 'forEach')"
  | ReqVal.num _ =>
      Except.error "TypeError: client.RequestedTaskIDs.forEach is not a function"
  | ReqVal.arr xs => Except.ok xs

/-- Calling forEach on the runtime value of AvailableSlots. -/
def SlotsVal.jsForEach : SlotsVal → Except String (List Int)
  | SlotsVal.undef =>
      Except.error "TypeError: Cannot read properties of undefined (reading 'forEach')"
  | SlotsVal.num _ =>
      Except.error "TypeError: worker.AvailableSlots.forEach is not a function"
  | SlotsVal.arr xs => Except.ok xs

/-- Reading .length on the runtime value of AvailableSlots: throws on
undefined, yields the JS value undefined (none) on a number, and the length
on an array. -/
def SlotsVal.jsLength : SlotsVal → Except String (Option Int)
  | SlotsVal.undef =>
      Except.error "TypeError: Cannot read properties of undefined (reading 'length')"
  | SlotsVal.num _ => Except.ok none
  | SlotsVal.arr xs => Except.ok (some (xs.length : Int))

/-- Client part of check 1 over runtime records. -/
def missingClientErrorsD (rnd : Nat → String) :
    List ClientD → Nat → List ValidationError × Nat
  | [], k => ([], k)
  | c :: rest, k =>
    let s1 : List ValidationError × Nat :=
      if c.ClientID = "" then ([mkMissingClientId (rnd k)], k + 1) else ([], k)
    let s2 : List ValidationError × Nat :=
      if c.ClientName = "" then
        (s1.1 ++ [mkMissingClientName c.ClientID (rnd s1.2)], s1.2 + 1)
      else s1
    let r := missingClientErrorsD rnd rest s2.2
    (s2.1 ++ r.1, r.2)

/-- Worker part of check 1 over runtime records. -/
def missingWorkerErrorsD (rnd : Nat → String) :
    List WorkerD → Nat → List ValidationError × Nat
  | [], k => ([], k)
  | w :: rest, k =>
    let s1 : List ValidationError × Nat :=
      if w.WorkerID = "" then ([mkMissingWorkerId (rnd k)], k + 1) else ([], k)
    let s2 : List ValidationError × Nat :=
      if w.WorkerName = "" then
        (s1.1 ++ [mkMissingWorkerName w.WorkerID (rnd s1.2)], s1.2 + 1)
      else s1
    let r := missingWorkerErrorsD rnd rest s2.2
    (s2.1 ++ r.1, r.2)

/-- Check 1 over runtime records (tasks are unchanged). -/
def validateMissingRequiredColumnsD (rnd : Nat → String)
    (clients : List ClientD) (workers : List WorkerD) (tasks : List Task) :
    List ValidationError × Nat :=
  let a := missingClientErrorsD rnd clients 0
  let b := missingWorkerErrorsD rnd workers a.2
  let c := missingTaskErrors rnd tasks b.2
  (a.1 ++ b.1 ++ c.1, c.2)

/-- Check 2 over runtime records. -/
def validateDuplicateIDsD (clients : List ClientD) (workers : List WorkerD)
    (tasks : List Task) : List ValidationError :=
  dupScan dupClientDefect ClientD.ClientID [] clients
    ++ dupScan dupWorkerDefect WorkerD.WorkerID [] workers
    ++ dupScan dupTaskDefect Task.TaskID [] tasks

/-- Defect pushed when Array.isArray(AvailableSlots) fails. -/
def mkMalformedSlots (wid : String) : ValidationError :=
  { id := "malformed-slots-" ++ wid, type := "malformed_list",
    entity := "workers", entityId := wid, field := "AvailableSlots",
    message := "AvailableSlots must be an array of numbers",
    severity := Severity.error }

/-- Check 3 over runtime records; the Array.isArray guard makes it total. -/
def validateMalformedListsD (workers : List WorkerD) : List ValidationError :=
  workers.flatMap fun w =>
    match w.AvailableSlots with
    | SlotsVal.arr xs =>
        xs.flatMap fun slot =>
          if slot < 1 then [mkInvalidSlot w.WorkerID slot] else []
    | _ => [mkMalformedSlots w.WorkerID]

/-- Priority defect over a runtime client. -/
def mkBadPriorityD (c : ClientD) : ValidationError :=
  { id := "invalid-priority-" ++ c.ClientID, type := "out_of_range",
    entity := "clients", entityId := c.ClientID, field := "PriorityLevel",
    message := "PriorityLevel must be between 1 and 5, got " ++ intDec c.PriorityLevel,
    severity := Severity.error }

/-- Load defect over a runtime worker. -/
def mkBadLoadD (w : WorkerD) : ValidationError :=
  { id := "invalid-load-" ++ w.WorkerID, type := "out_of_range",
    entity := "workers", entityId := w.WorkerID, field := "MaxLoadPerPhase",
    message := "MaxLoadPerPhase must be at least 1, got " ++ intDec w.MaxLoadPerPhase,
    severity := Severity.error }

/-- Check 4 over runtime records. -/
def validateOutOfRangeValuesD (clients : List ClientD) (workers : List WorkerD)
    (tasks : List Task) : List ValidationError :=
  (clients.flatMap fun c =>
    if c.PriorityLevel < 1 ∨ 5 < c.PriorityLevel then [mkBadPriorityD c] else [])
  ++ (tasks.flatMap fun t => if t.Duration < 1 then [mkBadDuration t] else [])
  ++ (workers.flatMap fun w => if w.MaxLoadPerPhase < 1 then [mkBadLoadD w] else [])

/-- Check 5 over runtime records; JSON.parse failure is caught, not thrown. -/
def validateBrokenJSOND (jsonOk : String → Bool) (clients : List ClientD) :
    List ValidationError :=
  clients.flatMap fun c =>
    if jsonOk c.AttributesJSON then [] else [mkBrokenJson c.ClientID]

/-- Inner loop of check 6: forEach over each RequestedTaskIDs value. -/
def unknownRefsD (taskIds : List String) :
    List ClientD → Except String (List ValidationError)
  | [] => Except.ok []
  | c :: rest => do
    let xs ← c.RequestedTaskIDs.jsForEach
    let here := xs.flatMap fun tid =>
      if tid ∈ taskIds then [] else [mkUnknownRef c.ClientID tid]
    let tail ← unknownRefsD taskIds rest
    pure (here ++ tail)

/-- Check 6 over runtime records: throws when RequestedTaskIDs is absent or
not an array, because the source dereferences it without a guard. -/
def validateUnknownReferencesD (clients : List ClientD) (tasks : List Task) :
    Except String (List ValidationError) :=
  unknownRefsD (tasks.map Task.TaskID) clients

/-- Overload warning over a runtime worker with its slot count. -/
def mkOverloadedD (w : WorkerD) (len : Int) : ValidationError :=
  { id := "overloaded-worker-" ++ w.WorkerID, type := "overloaded_worker",
    entity := "workers", entityId := w.WorkerID, field := "MaxLoadPerPhase",
    message := "MaxLoadPerPhase (" ++ intDec w.MaxLoadPerPhase
      ++ ") exceeds available slots (" ++ intDec len ++ ")",
    severity := Severity.warning }

/-- Check 8 over runtime records: reads .length unguarded, so it throws on an
absent AvailableSlots; on a number the comparison against undefined is
false and nothing is emitted. -/
def overloadedD : List WorkerD → Except String (List ValidationError)
  | [] => Except.ok []
  | w :: rest => do
    let len ← w.AvailableSlots.jsLength
    let here := match len with
      | some l => if l < w.MaxLoadPerPhase then [mkOverloadedD w l] else []
      | none => []
    let tail ← overloadedD rest
    pure (here ++ tail)

/-- Check 8 entry point. -/
def validateOverloadedWorkersD (workers : List WorkerD) :
    Except String (List ValidationError) :=
  overloadedD workers

/-- Capacity pairs of check 9: forEach over each AvailableSlots value. -/
def capacityPairsD : List WorkerD → Except String (List (Int × Int))
  | [] => Except.ok []
  | w :: rest => do
    let xs ← w.AvailableSlots.jsForEach
    let tail ← capacityPairsD rest
    pure ((xs.map fun p => (p, w.MaxLoadPerPhase)) ++ tail)

/-- Check 9 over runtime records: throws when some AvailableSlots is absent
or not an array. -/
def validatePhaseSlotSaturationD (workers : List WorkerD) (tasks : List Task) :
    Except String (List ValidationError) := do
  let cap ← capacityPairsD workers
  let capRec := buildRec cap
  let demRec := buildRec (demandPairs tasks)
  pure ((jsKeys demRec).flatMap fun phase =>
    let demand := lookupRec demRec phase
    let capacity := lookupRec capRec phase
    if capacity < demand then [satDefect phase demand capacity] else [])

/-- Check 10 over runtime records. -/
def validateSkillCoverageMatrixD (workers : List WorkerD) (tasks : List Task) :
    List ValidationError :=
  let workerSkills := workers.flatMap WorkerD.Skills
  tasks.flatMap fun t =>
    t.RequiredSkills.flatMap fun sk =>
      if sk ∈ workerSkills then [] else [mkMissingSkill t.TaskID sk]

/-- Qualified-worker count over runtime workers. -/
def qualifiedCountD (workers : List WorkerD) (t : Task) : Nat :=
  (workers.filter fun w => t.RequiredSkills.all fun sk => w.Skills.contains sk).length

/-- Check 11 over runtime records. -/
def validateMaxConcurrencyFeasibilityD (workers : List WorkerD) (tasks : List Task) :
    List ValidationError :=
  tasks.flatMap fun t =>
    let q := qualifiedCountD workers t
    if (q : Int) < t.MaxConcurrent then [mkMaxConc t.TaskID t.MaxConcurrent q] else []

/-- validateAll over runtime records: the twelve checks in source order; a
TypeError thrown inside a check aborts the run and propagates to the caller. -/
def validateAllD (rnd : Nat → String) (jsonOk : String → Bool)
    (clients : List ClientD) (workers : List WorkerD) (tasks : List Task) :
    Except String (List ValidationError) := do
  let e1 := (validateMissingRequiredColumnsD rnd clients workers tasks).1
  let e2 := validateDuplicateIDsD clients workers tasks
  let e3 := validateMalformedListsD workers
  let e4 := validateOutOfRangeValuesD clients workers tasks
  let e5 := validateBrokenJSOND jsonOk clients
  let e6 ← validateUnknownReferencesD clients tasks
  let e7 := validateCircularCoRunGroups
  let e8 ← validateOverloadedWorkersD workers
  let e9 ← validatePhaseSlotSaturationD workers tasks
  let e10 := validateSkillCoverageMatrixD workers tasks
  let e11 := validateMaxConcurrencyFeasibilityD workers tasks
  let e12 := validateConflictingRules
  pure (e1 ++ e2 ++ e3 ++ e4 ++ e5 ++ e6 ++ e7 ++ e8 ++ e9 ++ e10 ++ e11 ++ e12)

/-- Client whose RequestedTaskIDs field is absent at runtime. -/
def cAbsentReq : ClientD :=
  { ClientID := "C1", ClientName := "Acme", PriorityLevel := 3,
    RequestedTaskIDs := ReqVal.undef, GroupTag := "", AttributesJSON := "" }

/-- Worker whose AvailableSlots is a number instead of an array. -/
def wNumSlots : WorkerD :=
  { WorkerID := "W1", WorkerName := "Bob", Skills := [],
    AvailableSlots := SlotsVal.num 5, MaxLoadPerPhase := 1, WorkerGroup := "",
    QualificationLevel := 1 }

/-- C2 exhibit: a client with an absent RequestedTaskIDs makes validateAll
throw a TypeError from check 6, and a worker whose AvailableSlots is a
number makes it throw from check 9 (after check 3 has already reported the
field as a malformed list), instead of returning a Defect sequence. -/
theorem validateAll_throws_on_malformed_input :
    validateAllD rnd0 jsonOk0 [cAbsentReq] [] []
        = Except.error "TypeError: Cannot read properties of undefined (reading 'forEach')"
      ∧ validateAllD rnd0 jsonOk0 [] [wNumSlots] []
        = Except.error "TypeError: worker.AvailableSlots.forEach is not a function" := by
  constructor <;> rfl

end Dyn

end DataAlchemist
